import Mathlib

/-!
# Spaced-repetition scheduler (`js/srs-algorithm.js`, `js/database.js`)

A shallow embedding of the `SRSAlgorithm` class and of the record that
`Database.addWord` stores, followed by the properties of the design document
that were checked against it.

Modelling conventions.

* A JavaScript number is an IEEE 754 double, kept as the rational number it denotes.
  A decimal literal of the source denotes the double nearest to it (`double`), and each
  `+`, `-`, `*`, `/` of the scheduling arithmetic is the exact operation followed by
  `roundToDouble`: round to nearest, ties to even, gradual underflow.  `Math.round`,
  `Math.ceil`, `Math.max` and `Math.min` are exact on doubles.  The exponent has no
  upper bound here: only a `reviewCount` or a `learningStreak` near `1e308` in size makes
  the source store `Infinity`, and the interval product, where the source can overflow, is
  clamped to `[1, 365]` either way.
* Counts and times are integers, on which the operations of doubles are exact below
  `2 ^ 53`.  The priority score is computed without rounding: on the integers, halves and
  dates the code stores its operations are exact.
* A value that carries no number (`undefined` because the property is absent, or `NaN`)
  is `none`; arithmetic, `Math.max`, `Math.min` and `Math.round` propagate it, and
  `x || d` replaces it (and `0`) by `d`, exactly as the language does for both.
* A point in time is an integer number of milliseconds since the epoch.  An ISO
  string produced by `toISOString` and read back by `new Date` denotes the same
  integer, so string-valued time fields are stored as that integer.  The clock
  reading `new Date()` is the explicit argument `now`.
* `toISOString` of a date built from `NaN` throws a `RangeError`; functions that
  can reach it return `Except JSError`.
* `switch` on a string compares with `===`; it is a chain of string equalities.
* All clock readings taken during one call are the same instant `now`.
* `Array.prototype.sort` is stable; with a comparator that is a difference of keys it
  is the stable sort by that key, here `List.insertionSort`.
-/

namespace SRS

/-! ## JavaScript primitives used by the scheduler -/

/-- Exceptions the embedded code can raise. -/
inductive JSError where
  /-- The error `Date.prototype.toISOString` raises on an invalid date. -/
  | rangeError
  deriving DecidableEq, Repr

/-- Rounding of a rational to the nearest integer, a tie going to the even one. -/
def roundHalfEven (x : ℚ) : ℤ :=
  if x - ⌊x⌋ < 1 / 2 then ⌊x⌋
  else if 1 / 2 < x - ⌊x⌋ then ⌊x⌋ + 1
  else if ⌊x⌋ % 2 = 0 then ⌊x⌋ else ⌊x⌋ + 1

/-- The double nearest to `x`: with `e` the binary exponent of `x`, not below `-1022`, the
multiple of `2 ^ (e - 52)` nearest to `x`, a tie going to the even significand. -/
def roundToDouble (x : ℚ) : ℚ :=
  let e : ℤ := max (Int.log 2 |x|) (-1022)
  (roundHalfEven (x * (2 : ℚ) ^ (52 - e)) : ℚ) * (2 : ℚ) ^ (e - 52)

/-- The double a decimal literal of the source denotes. -/
def double (x : ℚ) : ℚ := roundToDouble x

/-- The operator `a + b` on doubles. -/
def jsAdd (a b : ℚ) : ℚ := roundToDouble (a + b)

/-- The operator `a - b` on doubles. -/
def jsSub (a b : ℚ) : ℚ := roundToDouble (a - b)

/-- The operator `a * b` on doubles. -/
def jsMul (a b : ℚ) : ℚ := roundToDouble (a * b)

/-- The operator `a / b` on doubles, for a divisor other than 0. -/
def jsDiv (a b : ℚ) : ℚ := roundToDouble (a / b)

/-- The function `Math.round` on a finite number: nearest integer, halves towards `+∞`. -/
def mathRound (x : ℚ) : ℤ := ⌊x + 1 / 2⌋

/-- The function `Math.max(a, x)` for a finite `a`: `NaN` when `x` is no number. -/
def mathMax (a : ℚ) (x : Option ℚ) : Option ℚ := x.map (fun v => max a v)

/-- The expression `x || d` on an integer-valued property: `d` when `x` is absent or `0`. -/
def orElseInt (x : Option ℤ) (d : ℤ) : ℤ :=
  match x with
  | some v => if v = 0 then d else v
  | none => d

/-- The expression `x || d` on a number-valued property: `d` when `x` is absent, `NaN` or `0`. -/
def orElseNum (x : Option ℚ) (d : ℚ) : ℚ :=
  match x with
  | some v => if v = 0 then d else v
  | none => d

/-- The expression `s || d` on a string-valued property: `d` when `s` is absent or empty. -/
def orElseStr (s : Option String) (d : String) : String :=
  match s with
  | some v => if v = "" then d else v
  | none => d

/-- Milliseconds in one day, `24 * 60 * 60 * 1000`. -/
def msPerDay : ℤ := 24 * 60 * 60 * 1000

/-! ## Data model -/

/-- The word object kept in the `words` store.  The first block of fields is what
`Database.addWord` writes; the second block is only ever added by `SRSAlgorithm`. -/
structure Word where
  word : String
  phonetic : String
  meaning : String
  exampleText : String
  category : String
  difficulty : String
  reviewCount : ℤ
  masteryLevel : ℚ
  createdAt : ℤ
  nextReview : ℤ
  lastReview : Option ℤ
  isLearned : Bool
  easeFactor : Option ℚ
  leitnerBox : Option ℤ
  hardBoxAttempts : Option ℤ
  forceReviewTime : Option ℤ
  deriving DecidableEq, Repr

/-- The argument of `Database.addWord`: what the caller supplies for a new word. -/
structure WordData where
  word : String
  phonetic : Option String
  meaning : String
  exampleText : Option String
  category : Option String
  difficulty : Option String
  deriving DecidableEq, Repr

/-- The record `Database.addWord` builds and hands to the object store
(`database.js`, lines 68-81); `now` is the clock reading. -/
def addWord (now : ℤ) (wordData : WordData) : Word :=
  { word := wordData.word
    phonetic := orElseStr wordData.phonetic ""
    meaning := wordData.meaning
    exampleText := orElseStr wordData.exampleText ""
    category := orElseStr wordData.category "daily"
    difficulty := orElseStr wordData.difficulty "medium"
    reviewCount := 0
    masteryLevel := 0
    createdAt := now
    nextReview := now
    lastReview := none
    isLearned := false
    easeFactor := none
    leitnerBox := none
    hardBoxAttempts := none
    forceReviewTime := none }

/-! ## `SRSAlgorithm` -/

namespace SRSAlgorithm

/-- Constructor field `this.baseInterval`. -/
def baseInterval : ℤ := 1
/-- Constructor field `this.easeFactor`. -/
def easeFactor : ℚ := 2.5
/-- Constructor field `this.minimumEaseFactor`. -/
def minimumEaseFactor : ℚ := double 1.3
/-- Constructor field `this.leitnerBoxes`. -/
def leitnerBoxes : ℤ := 5
/-- Constructor field `this.hardBoxReviewInterval`. -/
def hardBoxReviewInterval : ℤ := 1
/-- Constructor field `this.maxHardBoxAttempts`. -/
def maxHardBoxAttempts : ℤ := 3

/-- The first `switch` of `calculateReviewInterval` (lines 102-113): the multiplier
starts at `1.0` and is overwritten for the three known difficulty names. -/
def difficultyMultiplier (difficulty : String) : ℚ :=
  if difficulty = "easy" then double 0.8
  else if difficulty = "medium" then 1.0
  else if difficulty = "hard" then 1.5
  else 1.0

/-- The method `calculateReviewInterval(reviewCount, easeFactor, difficulty)` (lines 100-129).
The result is `none` when the JavaScript result is `NaN`. -/
def calculateReviewInterval (reviewCount : ℤ) (easeFactor : Option ℚ)
    (difficulty : String) : Option ℤ :=
  let interval : Option ℤ :=
    if reviewCount = 0 then some baseInterval
    else if reviewCount = 1 then some 6
    else easeFactor.map
      (fun e => mathRound (jsMul (jsMul (jsMul (baseInterval : ℚ) e) (reviewCount : ℚ))
        (difficultyMultiplier difficulty)))
  interval.map (fun i => max 1 (min 365 i))

/-- The `switch (response)` of `calculateNextReview` (lines 37-76): the copy of the word
with the three fields rewritten; no case matches an unknown response. -/
def gradeUpdate (word : Word) (response : String) : Word :=
  if response = "again" then
    { word with
      easeFactor := mathMax minimumEaseFactor
        (word.easeFactor.map (fun e => jsSub (jsMul e (double 0.8)) (double 0.15)))
      reviewCount := 0
      masteryLevel := max 0 (jsSub word.masteryLevel 1) }
  else if response = "hard" then
    { word with
      easeFactor := mathMax minimumEaseFactor
        (word.easeFactor.map (fun e => jsSub (jsMul e (double 0.85)) (double 0.05)))
      reviewCount := max 1 word.reviewCount
      masteryLevel := max 0 (jsSub word.masteryLevel 0.5) }
  else if response = "good" then
    { word with
      easeFactor := mathMax minimumEaseFactor
        (word.easeFactor.map (fun e => jsSub (jsAdd e (double 0.1))
          (jsAdd (double 0.08) (jsMul (double 0.02) (word.reviewCount : ℚ)))))
      reviewCount := word.reviewCount + 1
      masteryLevel := min 5 (jsAdd word.masteryLevel 0.5) }
  else if response = "easy" then
    { word with
      easeFactor := mathMax minimumEaseFactor
        (word.easeFactor.map (fun e => jsSub (jsAdd e (double 0.15))
          (jsAdd (double 0.15) (jsMul (double 0.01) (word.reviewCount : ℚ)))))
      reviewCount := word.reviewCount + 1
      masteryLevel := min 5 (jsAdd word.masteryLevel 1) }
  else word

/-- The method `calculateNextReview(word, response)` (lines 35-91), with the clock reading
`now` as an argument.  When the interval is `NaN` the date is invalid and
`nextReviewTime.toISOString()` throws. -/
def calculateNextReview (now : ℤ) (word : Word) (response : String) : Except JSError Word :=
  let updatedWord := gradeUpdate word response
  match calculateReviewInterval updatedWord.reviewCount updatedWord.easeFactor word.difficulty with
  | none => Except.error JSError.rangeError
  | some interval =>
    Except.ok { updatedWord with
      nextReview := now + interval * msPerDay
      lastReview := some now }

/-- The method `applyLeitnerSystem(word, wasCorrect)` (lines 137-175), with the clock reading
`now` as an argument. -/
def applyLeitnerSystem (now : ℤ) (word : Word) (wasCorrect : Bool) : Except JSError Word :=
  if !wasCorrect then
    let attempts : ℤ := orElseInt word.hardBoxAttempts 0 + 1
    let updatedWord : Word :=
      { word with
        leitnerBox := some (max 1 (orElseInt word.leitnerBox leitnerBoxes - 1))
        hardBoxAttempts := some attempts
        forceReviewTime := some (now + hardBoxReviewInterval * msPerDay) }
    if attempts ≥ maxHardBoxAttempts then
      Except.ok { updatedWord with
        reviewCount := 0
        masteryLevel := 0
        hardBoxAttempts := some 0 }
    else Except.ok updatedWord
  else
    let box : ℤ := min leitnerBoxes (orElseInt word.leitnerBox 1 + 1)
    let updatedWord : Word :=
      { word with
        leitnerBox := some box
        hardBoxAttempts := some 0 }
    if box > 1 then
      match calculateReviewInterval updatedWord.reviewCount
          (some (orElseNum updatedWord.easeFactor easeFactor)) word.difficulty with
      | none => Except.error JSError.rangeError
      | some interval =>
        Except.ok { updatedWord with
          nextReview := now + interval * msPerDay
          forceReviewTime := none }
    else Except.ok updatedWord

end SRSAlgorithm

/-! ## `SRSAlgorithm`: review queue -/

/-- The instant `new Date('2099-12-31')`, 2099-12-31T00:00:00Z, in milliseconds. -/
def SRSAlgorithm.farFuture : ℤ := 4102358400000

/-- The test of the `forEach` body of `getWordsForReview` (lines 187-191):
`nextReview <= now || (forceReview && forceReview <= now)`. -/
def SRSAlgorithm.isDue (now : ℤ) (word : Word) : Bool :=
  decide (word.nextReview ≤ now) ||
    (match word.forceReviewTime with
     | some forceReview => decide (forceReview ≤ now)
     | none => false)

/-- The date the comparator of `getWordsForReview` gives a word (lines 198-199): its
`forceReviewTime` when it has one, else 2099-12-31. -/
def SRSAlgorithm.forceDate (word : Word) : ℤ :=
  match word.forceReviewTime with
  | some t => t
  | none => farFuture

/-- The comparator of `getWordsForReview` (line 200), `aForce - bForce`. -/
def SRSAlgorithm.compareForce (a b : Word) : ℤ := forceDate a - forceDate b

/-- The method `getWordsForReview(words)` (lines 182-202), with the clock reading `now` as an
argument.  `Array.prototype.sort` is stable and the comparator is a difference of keys, so the
array it leaves is the stable sort that puts `a` before `b` when `compare(a, b) <= 0`. -/
def SRSAlgorithm.getWordsForReview (now : ℤ) (words : List Word) : List Word :=
  let reviewWords := words.filter (isDue now)
  reviewWords.insertionSort (fun a b => compareForce a b ≤ 0)

/-- A word with the `priorityScore` property that `getSmartReviewRecommendations` adds
(`{ ...word, priorityScore: score }`, line 332). -/
structure ScoredWord extends Word where
  priorityScore : ℚ
  deriving DecidableEq, Repr

/-- The lookup `difficultyScore[word.difficulty]` in `{ easy: 1, medium: 2, hard: 3 }`
(line 324); `none` for a name that is not a key of the table (names that every object
inherits, such as `constructor`, are not modelled). -/
def SRSAlgorithm.difficultyScore (difficulty : String) : Option ℚ :=
  if difficulty = "easy" then some 1
  else if difficulty = "medium" then some 2
  else if difficulty = "hard" then some 3
  else none

/-- The body of the `map` callback of `getSmartReviewRecommendations` (lines 310-330): the
score of one word at the clock reading `now`. -/
def SRSAlgorithm.priorityScore (now : ℤ) (word : Word) : ℚ :=
  let score : ℚ := 0
  let score := if word.forceReviewTime.isSome then score + 100 else score
  let score := score + (5 - orElseNum (some word.masteryLevel) 0) * 10
  let score := score + (10 - (orElseInt (some word.reviewCount) 0 : ℚ)) * 5
  let score := score + orElseNum (difficultyScore word.difficulty) 2
  let daysDiff : ℤ := ⌈((word.nextReview - now : ℤ) : ℚ) / (1000 * 60 * 60 * 24)⌉
  score + max 0 (20 - (daysDiff : ℚ))

/-- The call `array.slice(0, n)` for an integer `n`: the first `n` elements, and for a
negative `n` all but the last `-n`. -/
def arraySliceFromZero {α : Type} (l : List α) (n : ℤ) : List α :=
  if 0 ≤ n then l.take n.toNat else l.take (l.length - (-n).toNat)

/-- The method `getSmartReviewRecommendations(words, maxCount = 20)` (lines 305-339), with the
clock reading `now` as an argument; `maxCount` is `none` when the caller omits it. -/
def SRSAlgorithm.getSmartReviewRecommendations (now : ℤ) (words : List Word)
    (maxCount : Option ℤ) : List ScoredWord :=
  let reviewWords := getWordsForReview now words
  let scoredWords : List ScoredWord :=
    reviewWords.map (fun word => { toWord := word, priorityScore := priorityScore now word })
  arraySliceFromZero
    (scoredWords.insertionSort (fun a b => b.priorityScore - a.priorityScore ≤ 0))
    (maxCount.getD 20)

/-! ## `SRSAlgorithm`: user statistics -/

/-- The object `this.userStats`.  A date string made by `toDateString` is kept as the number
of its calendar day. -/
structure UserStats where
  totalReviews : ℕ
  correctReviews : ℕ
  consecutiveCorrect : ℕ
  consecutiveIncorrect : ℕ
  lastReviewDate : Option ℤ
  learningStreak : ℕ
  deriving DecidableEq, Repr

/-- The object `this.userStats` as the constructor leaves it (lines 19-26). -/
def SRSAlgorithm.initialUserStats : UserStats :=
  { totalReviews := 0
    correctReviews := 0
    consecutiveCorrect := 0
    consecutiveIncorrect := 0
    lastReviewDate := none
    learningStreak := 0 }

/-- The calendar day of an instant, what `toDateString` identifies: the number of whole days
since the epoch. -/
def toDateString (t : ℤ) : ℤ := t / msPerDay

/-- The method `updateLearningStreak()` (lines 229-243) as a function of the statistics
object, with the clock reading `now` as an argument. -/
def SRSAlgorithm.updateLearningStreak (now : ℤ) (userStats : UserStats) : UserStats :=
  let today := toDateString now
  let yesterday := toDateString (now - 24 * 60 * 60 * 1000)
  if userStats.lastReviewDate = some today then userStats
  else if userStats.lastReviewDate = some yesterday then
    { userStats with learningStreak := userStats.learningStreak + 1 }
  else { userStats with learningStreak := 1 }

/-- The method `updateUserStats(wasCorrect)` (lines 208-224) as a function of the statistics
object, with the clock reading `now` as an argument. -/
def SRSAlgorithm.updateUserStats (now : ℤ) (userStats : UserStats) (wasCorrect : Bool) :
    UserStats :=
  let s1 : UserStats := { userStats with totalReviews := userStats.totalReviews + 1 }
  let s2 : UserStats :=
    if wasCorrect then
      { s1 with
        correctReviews := s1.correctReviews + 1
        consecutiveCorrect := s1.consecutiveCorrect + 1
        consecutiveIncorrect := 0 }
    else
      { s1 with
        consecutiveIncorrect := s1.consecutiveIncorrect + 1
        consecutiveCorrect := 0 }
  let s3 : UserStats := { s2 with lastReviewDate := some (toDateString now) }
  updateLearningStreak now s3

/-- The object `getEfficiencyStats` returns. -/
structure EfficiencyStats where
  accuracy : ℤ
  totalReviews : ℕ
  correctReviews : ℕ
  consecutiveCorrect : ℕ
  consecutiveIncorrect : ℕ
  learningStreak : ℕ
  lastReviewDate : Option ℤ
  deriving DecidableEq, Repr

/-- The method `getEfficiencyStats()` (lines 249-263): the returned object, paired with the
statistics object as the call leaves it. -/
def SRSAlgorithm.getEfficiencyStats (userStats : UserStats) : EfficiencyStats × UserStats :=
  let accuracy : ℚ :=
    if userStats.totalReviews > 0 then
      jsMul (jsDiv (userStats.correctReviews : ℚ) (userStats.totalReviews : ℚ)) 100
    else 0
  ({ accuracy := mathRound accuracy
     totalReviews := userStats.totalReviews
     correctReviews := userStats.correctReviews
     consecutiveCorrect := userStats.consecutiveCorrect
     consecutiveIncorrect := userStats.consecutiveIncorrect
     learningStreak := userStats.learningStreak
     lastReviewDate := userStats.lastReviewDate }, userStats)

/-! ## `SRSAlgorithm`: progress prediction -/

/-- A JavaScript number that is finite or `Infinity`. -/
inductive ExtNum where
  | finite (q : ℚ)
  | infinity
  deriving DecidableEq, Repr

/-- The function `Math.ceil` on a finite number or `Infinity`. -/
def mathCeil : ExtNum → ExtNum
  | ExtNum.finite q => ExtNum.finite (⌈q⌉ : ℤ)
  | ExtNum.infinity => ExtNum.infinity

/-- The object `predictLearningProgress` returns. -/
structure ProgressPrediction where
  totalWords : ℕ
  learnedWords : ℕ
  masteredWords : ℕ
  progressPercentage : ℤ
  avgReviewCount : ℚ
  estimatedDaysToMaster : ExtNum
  dailyLearningRate : ℚ
  deriving DecidableEq, Repr

/-- The method `predictLearningProgress(words)` (lines 346-371) as a function of the
statistics object it reads and of the words. -/
def SRSAlgorithm.predictLearningProgress (userStats : UserStats) (words : List Word) :
    ProgressPrediction :=
  let totalWords : ℕ := words.length
  let learnedWords : ℕ := (words.filter (fun word => decide (word.reviewCount > 0))).length
  let masteredWords : ℕ :=
    (words.filter (fun word => decide (orElseNum (some word.masteryLevel) 0 ≥ 4))).length
  let reviewWords := words.filter (fun word => decide (word.reviewCount > 0))
  let avgReviewCount : ℚ :=
    if reviewWords.length > 0 then
      jsDiv
        ((reviewWords.foldl (fun sum word => sum + orElseInt (some word.reviewCount) 0) 0 : ℤ) : ℚ)
        (reviewWords.length : ℚ)
    else 0
  let remainingWords : ℚ := (totalWords : ℚ) - (masteredWords : ℚ)
  let dailyLearningRate : ℚ :=
    min 20 (jsDiv (learnedWords : ℚ) ((max 1 userStats.learningStreak : ℕ) : ℚ))
  let estimatedDaysToMaster : ExtNum :=
    if dailyLearningRate > 0 then ExtNum.finite (jsDiv remainingWords dailyLearningRate)
    else ExtNum.infinity
  { totalWords := totalWords
    learnedWords := learnedWords
    masteredWords := masteredWords
    progressPercentage :=
      if totalWords > 0 then
        mathRound (jsMul (jsDiv (masteredWords : ℚ) (totalWords : ℚ)) 100)
      else 0
    avgReviewCount := jsDiv (mathRound (jsMul avgReviewCount 10) : ℚ) 10
    estimatedDaysToMaster := mathCeil estimatedDaysToMaster
    dailyLearningRate := jsDiv (mathRound (jsMul dailyLearningRate 10) : ℚ) 10 }

/-! ## The design document's reference definitions

These follow the wording of the design document, not the code; the theorems below
compare the code with them.  The document's formulas are expressions over the numbers the
program stores (it writes `easeFactor≈2.52` for `2.5 + 0.1 - 0.08`), so their constants and
operations are those of doubles, taken in the order in which the formula is written. -/

/-- The response qualities of the design document. -/
inductive Quality where
  | again | hard | good | easy
  deriving DecidableEq, Repr

/-- The string the code uses for a quality. -/
def Quality.name : Quality → String
  | Quality.again => "again"
  | Quality.hard => "hard"
  | Quality.good => "good"
  | Quality.easy => "easy"

/-- The difficulty tiers of the design document. -/
inductive DifficultyTier where
  | easy | medium | hard
  deriving DecidableEq, Repr

/-- The string the code uses for a difficulty tier. -/
def DifficultyTier.name : DifficultyTier → String
  | DifficultyTier.easy => "easy"
  | DifficultyTier.medium => "medium"
  | DifficultyTier.hard => "hard"

/-- The ease-factor column of the per-quality table, re-clamped to `>= 1.3`. -/
def tableEase (q : Quality) (ease : ℚ) (reviewCount : ℤ) : ℚ :=
  match q with
  | Quality.again => max (double 1.3) (jsSub (jsMul ease (double 0.8)) (double 0.15))
  | Quality.hard => max (double 1.3) (jsSub (jsMul ease (double 0.85)) (double 0.05))
  | Quality.good => max (double 1.3) (jsSub (jsAdd ease (double 0.1))
      (jsAdd (double 0.08) (jsMul (double 0.02) reviewCount)))
  | Quality.easy => max (double 1.3) (jsSub (jsAdd ease (double 0.15))
      (jsAdd (double 0.15) (jsMul (double 0.01) reviewCount)))

/-- The review-count column of the per-quality table. -/
def tableReviewCount (q : Quality) (reviewCount : ℤ) : ℤ :=
  match q with
  | Quality.again => 0
  | Quality.hard => max 1 reviewCount
  | Quality.good => reviewCount + 1
  | Quality.easy => reviewCount + 1

/-- The mastery column of the per-quality table. -/
def tableMastery (q : Quality) (mastery : ℚ) : ℚ :=
  match q with
  | Quality.again => max 0 (jsSub mastery 1)
  | Quality.hard => max 0 (jsSub mastery 0.5)
  | Quality.good => min 5 (jsAdd mastery 0.5)
  | Quality.easy => min 5 (jsAdd mastery 1)

/-- The multiplier table of the interval model: easy 0.8, medium 1.0, hard 1.5. -/
def tierMultiplier : DifficultyTier → ℚ
  | DifficultyTier.easy => double 0.8
  | DifficultyTier.medium => 1.0
  | DifficultyTier.hard => 1.5

/-- Clamping of an integer to `[lo, hi]`. -/
def clampInt (lo hi x : ℤ) : ℤ := if x < lo then lo else if hi < x then hi else x

/-- The interval model as the design document words it: 1 at review count 0, 6 at review
count 1, otherwise the rounded product clamped to `[1, 365]`. -/
def computeIntervalRef (reviewCount : ℤ) (ease : ℚ) (tier : DifficultyTier) : ℤ :=
  if reviewCount = 0 then 1
  else if reviewCount = 1 then 6
  else clampInt 1 365
    (mathRound (jsMul (jsMul (jsMul 1 ease) reviewCount) (tierMultiplier tier)))

/-! ## Concrete inputs used by the checked scenarios -/

/-- The word of Scenario B: review count 2, ease factor 2.5, difficulty hard. -/
def scenarioB : Word :=
  { word := "challenge", phonetic := "", meaning := "", exampleText := "", category := "academic"
    difficulty := "hard", reviewCount := 2, masteryLevel := 1, createdAt := 0, nextReview := 0
    lastReview := none, isLearned := true, easeFactor := some 2.5, leitnerBox := none
    hardBoxAttempts := none, forceReviewTime := none }

/-- The word of Scenario A: review count 0, ease factor 2.5, difficulty medium. -/
def scenarioA : Word :=
  { word := "beautiful", phonetic := "", meaning := "", exampleText := "", category := "daily"
    difficulty := "medium", reviewCount := 0, masteryLevel := 0, createdAt := 0, nextReview := 0
    lastReview := none, isLearned := false, easeFactor := some 2.5, leitnerBox := none
    hardBoxAttempts := none, forceReviewTime := none }

/-- A word whose ease factor, 0.2, lies far below the floor, with a large review count. -/
def lowEaseWord : Word :=
  { scenarioA with easeFactor := some (double 0.2), reviewCount := 40 }

/-- A word at the top of the mastery range. -/
def masteredWord : Word :=
  { scenarioA with masteryLevel := 5, reviewCount := 7 }

/-- A word in Leitner box 3 that has failed twice in a row. -/
def boxedWord : Word :=
  { scenarioB with leitnerBox := some 3, hardBoxAttempts := some 2, masteryLevel := 2
                   forceReviewTime := some 500 }

/-- A word whose stored Leitner box, 9, lies outside `1..5`. -/
def overfullBoxWord : Word :=
  { scenarioA with leitnerBox := some 9 }

/-- A due word whose forced review, set by a failure on 2099-12-30, falls after 2099-12-31. -/
def lateForcedWord : Word :=
  { scenarioB with word := "late", nextReview := 4102300000000
                   forceReviewTime := some 4102386400000 }

/-- A due word without a forced review. -/
def plainDueWord : Word :=
  { scenarioA with word := "plain", nextReview := 4102300000000 }

/-- A due word with a forced review in the past (item A of Scenario C, `T = 500`). -/
def forcedDueWord : Word :=
  { scenarioB with word := "forced", nextReview := 900, forceReviewTime := some 500 }

/-- The difficulty weights of the priority score: easy 1, medium 2, hard 3. -/
def tierWeight : DifficultyTier → ℚ
  | DifficultyTier.easy => 1
  | DifficultyTier.medium => 2
  | DifficultyTier.hard => 3

/-- The number of days from `now` until `t`, in whole days rounded up (negative or zero when
`t` is past). -/
def daysUntil (t now : ℤ) : ℤ := ⌈((t - now : ℤ) : ℚ) / (msPerDay : ℚ)⌉

/-- The priority score as the design document writes it. -/
def priorityScoreRef (forced : Bool) (mastery : ℚ) (reviewCount : ℤ) (tier : DifficultyTier)
    (days : ℤ) : ℚ :=
  (if forced then 100 else 0) + (5 - mastery) * 10 + (10 - (reviewCount : ℚ)) * 5
    + tierWeight tier + max 0 (20 - (days : ℚ))

/-- A due, forced word of difficulty hard, three days overdue at time `4 * msPerDay`. -/
def overdueWord : Word :=
  { scenarioB with nextReview := 1 * msPerDay, forceReviewTime := some 500, masteryLevel := 2 }

/-- The `map` step of `getSmartReviewRecommendations`: a word with its score attached. -/
def scored (now : ℤ) (word : Word) : ScoredWord :=
  { toWord := word, priorityScore := SRSAlgorithm.priorityScore now word }

/-- A tracker last used on day 9 with a streak of 3. -/
def streakTracker : UserStats :=
  { totalReviews := 5, correctReviews := 3, consecutiveCorrect := 1, consecutiveIncorrect := 0
    lastReviewDate := some 9, learningStreak := 3 }

/-- The words of Scenario D: 100 words, 25 of them mastered, 50 of them learned. -/
def scenarioD : List Word :=
  List.replicate 25 { scenarioA with reviewCount := 3, masteryLevel := 5 } ++
    List.replicate 25 { scenarioA with reviewCount := 1, masteryLevel := 1 } ++
    List.replicate 50 scenarioA

/-- The tracker of Scenario D: a streak of 5. -/
def scenarioDStats : UserStats :=
  { streakTracker with learningStreak := 5 }

/-- A tracker with a streak of 3 days. -/
def threeDayStats : UserStats :=
  { streakTracker with learningStreak := 3 }

/-- A single word that has been reviewed once. -/
def oneLearnedWord : List Word :=
  [{ scenarioA with reviewCount := 1, masteryLevel := 1 }]

/-- The learning rate the design document defines: `min(20, learnedWords / max(1, streak))`. -/
def learningRateRef (learnedWords streak : ℕ) : ℚ :=
  min 20 (jsDiv (learnedWords : ℚ) ((max 1 streak : ℕ) : ℚ))

/-- A sequence of `updateUserStats` calls, each with its clock reading and outcome, applied
in order to a tracker. -/
def recordOutcomes (userStats : UserStats) (calls : List (ℤ × Bool)) : UserStats :=
  calls.foldl (fun s call => SRSAlgorithm.updateUserStats call.1 s call.2) userStats

/-- The word of the non-monotone step: review count 1, ease factor 2.5, difficulty medium. -/
def graduatedWord : Word :=
  { scenarioA with reviewCount := 1, masteryLevel := 1 / 2 }

/-- The invariant of the tracker's counters. -/
def CountersOk (s : UserStats) : Prop :=
  s.correctReviews ≤ s.totalReviews ∧
  s.consecutiveCorrect ≤ s.correctReviews ∧
  s.consecutiveIncorrect + s.correctReviews ≤ s.totalReviews ∧
  (s.consecutiveCorrect = 0 ∨ s.consecutiveIncorrect = 0)

/-- A tracker with 23 correct answers out of 40. -/
def fortyReviews : UserStats :=
  { totalReviews := 40, correctReviews := 23, consecutiveCorrect := 2, consecutiveIncorrect := 0
    lastReviewDate := some 9, learningStreak := 0 }

/-- Forty words, 23 of them mastered. -/
def fortyWords : List Word :=
  List.replicate 23 { scenarioA with reviewCount := 3, masteryLevel := 5 } ++
    List.replicate 17 scenarioA

/-- A word with ease factor 1.86 and review count 0. -/
def easeRiseWord : Word :=
  { scenarioA with easeFactor := some (double 1.86) }

/-- A word with ease factor 2.375 and review count 16, difficulty medium. -/
def hardRoundingWord : Word :=
  { scenarioA with easeFactor := some 2.375, reviewCount := 16 }

/-- A word with ease factor 2.51 and review count 1, difficulty hard. -/
def easyRoundingWord : Word :=
  { scenarioB with easeFactor := some (double 2.51), reviewCount := 1 }

/-- Twenty-one words, seven of them reviewed once and none mastered. -/
def twentyOneWords : List Word :=
  List.replicate 7 { scenarioA with reviewCount := 1, masteryLevel := 1 } ++
    List.replicate 14 scenarioA

open SRSAlgorithm

/-! ## Double-precision rounding -/

theorem floor_le_roundHalfEven (x : ℚ) : ⌊x⌋ ≤ roundHalfEven x := by
  unfold roundHalfEven
  split_ifs <;> omega

theorem roundHalfEven_le_floor_add_one (x : ℚ) : roundHalfEven x ≤ ⌊x⌋ + 1 := by
  unfold roundHalfEven
  split_ifs <;> omega

theorem roundHalfEven_intCast (n : ℤ) : roundHalfEven (n : ℚ) = n := by
  unfold roundHalfEven
  simp

theorem roundHalfEven_mono {x y : ℚ} (h : x ≤ y) : roundHalfEven x ≤ roundHalfEven y := by
  rcases lt_or_eq_of_le (Int.floor_mono h) with hlt | heq
  · calc roundHalfEven x ≤ ⌊x⌋ + 1 := roundHalfEven_le_floor_add_one x
      _ ≤ ⌊y⌋ := hlt
      _ ≤ roundHalfEven y := floor_le_roundHalfEven y
  · unfold roundHalfEven
    rw [← heq]
    split_ifs <;> first | omega | (exfalso; linarith)

theorem abs_roundHalfEven_sub_le (x : ℚ) : |(roundHalfEven x : ℚ) - x| ≤ 1 / 2 := by
  have h1 := Int.floor_le x
  have h2 := Int.lt_floor_add_one x
  rw [abs_le]
  unfold roundHalfEven
  split_ifs <;> push_cast <;> constructor <;> linarith

theorem roundHalfEven_eq_of_abs_lt (x : ℚ) (n : ℤ) (h : |x - n| < 1 / 2) :
    roundHalfEven x = n := by
  have h3 := abs_roundHalfEven_sub_le x
  rw [abs_lt] at h
  rw [abs_le] at h3
  have h4 : ((roundHalfEven x - n : ℤ) : ℚ) < 1 := by push_cast; linarith
  have h5 : (-1 : ℚ) < ((roundHalfEven x - n : ℤ) : ℚ) := by push_cast; linarith
  have h6 : roundHalfEven x - n < 1 := by exact_mod_cast h4
  have h7 : -1 < roundHalfEven x - n := by exact_mod_cast h5
  omega

theorem roundHalfEven_neg (x : ℚ) : roundHalfEven (-x) = -roundHalfEven x := by
  by_cases hx : (⌊x⌋ : ℚ) = x
  · rw [← hx, ← Int.cast_neg, roundHalfEven_intCast, roundHalfEven_intCast]
  · have h1 := Int.floor_le x
    have h2 := Int.lt_floor_add_one x
    have hlt : (⌊x⌋ : ℚ) < x := lt_of_le_of_ne h1 hx
    have hf : ⌊-x⌋ = -⌊x⌋ - 1 := by
      rw [Int.floor_eq_iff]
      push_cast
      constructor <;> linarith
    unfold roundHalfEven
    rw [hf]
    push_cast
    split_ifs <;> first | omega | (exfalso; linarith)

theorem roundToDouble_zero : roundToDouble 0 = 0 := by
  simp [roundToDouble, roundHalfEven]

theorem roundToDouble_neg (x : ℚ) : roundToDouble (-x) = -roundToDouble x := by
  unfold roundToDouble
  simp only [abs_neg, neg_mul, roundHalfEven_neg, Int.cast_neg]

theorem two_zpow_pos (k : ℤ) : (0 : ℚ) < (2 : ℚ) ^ k := zpow_pos (by norm_num) k

theorem roundToDouble_nonneg {x : ℚ} (h : 0 ≤ x) : 0 ≤ roundToDouble x := by
  unfold roundToDouble
  apply mul_nonneg _ (two_zpow_pos _).le
  have h0 : roundHalfEven 0 ≤ roundHalfEven (x * (2 : ℚ) ^ (52 - max (Int.log 2 |x|) (-1022))) :=
    roundHalfEven_mono (mul_nonneg h (two_zpow_pos _).le)
  have h1 : roundHalfEven 0 = 0 := by simpa using roundHalfEven_intCast 0
  rw [h1] at h0
  exact_mod_cast h0

/-- The binary exponent `roundToDouble` works with. -/
theorem roundToDouble_eq_of_exponent (x : ℚ) (e : ℤ)
    (he : max (Int.log 2 |x|) (-1022) = e) :
    roundToDouble x = (roundHalfEven (x * (2 : ℚ) ^ (52 - e)) : ℚ) * (2 : ℚ) ^ (e - 52) := by
  unfold roundToDouble
  rw [he]

theorem log_two_eq {x : ℚ} {e : ℤ} (h1 : (2 : ℚ) ^ e ≤ x) (h2 : x < (2 : ℚ) ^ (e + 1)) :
    Int.log 2 x = e := by
  have hx : 0 < x := lt_of_lt_of_le (two_zpow_pos e) h1
  have ha : e ≤ Int.log 2 x :=
    (Int.zpow_le_iff_le_log (by norm_num) hx).1 (by exact_mod_cast h1)
  have hb : Int.log 2 x < e + 1 :=
    (Int.lt_zpow_iff_log_lt (by norm_num) hx).1 (by exact_mod_cast h2)
  omega

/-- Evaluation of `roundToDouble` at a number of the normal range whose binary exponent and
rounded significand are known. -/
theorem roundToDouble_eq (x : ℚ) (e n : ℤ) (he : -1022 ≤ e)
    (h1 : (2 : ℚ) ^ e ≤ x) (h2 : x < (2 : ℚ) ^ (e + 1))
    (hn : |x * (2 : ℚ) ^ (52 - e) - n| < 1 / 2) :
    roundToDouble x = (n : ℚ) * (2 : ℚ) ^ (e - 52) := by
  have hx : 0 < x := lt_of_lt_of_le (two_zpow_pos e) h1
  have hlog : Int.log 2 |x| = e := by
    rw [abs_of_pos hx]; exact log_two_eq h1 h2
  rw [roundToDouble_eq_of_exponent x e (by rw [hlog]; exact max_eq_left he),
    roundHalfEven_eq_of_abs_lt _ n hn]

theorem roundHalfEven_half (k : ℤ) :
    roundHalfEven ((k : ℚ) + 1 / 2) = if k % 2 = 0 then k else k + 1 := by
  have hf : ⌊(k : ℚ) + 1 / 2⌋ = k := by
    rw [Int.floor_eq_iff]; constructor <;> norm_num
  unfold roundHalfEven
  rw [hf]
  norm_num

/-- Evaluation of `roundToDouble` at a number half way between two neighbouring doubles, the
lower of which has an even significand. -/
theorem roundToDouble_eq_tie (x : ℚ) (e k : ℤ) (he : -1022 ≤ e)
    (h1 : (2 : ℚ) ^ e ≤ x) (h2 : x < (2 : ℚ) ^ (e + 1))
    (hk : x * (2 : ℚ) ^ (52 - e) = (k : ℚ) + 1 / 2) (hev : k % 2 = 0) :
    roundToDouble x = (k : ℚ) * (2 : ℚ) ^ (e - 52) := by
  have hx : 0 < x := lt_of_lt_of_le (two_zpow_pos e) h1
  have hlog : Int.log 2 |x| = e := by
    rw [abs_of_pos hx]; exact log_two_eq h1 h2
  rw [roundToDouble_eq_of_exponent x e (by rw [hlog]; exact max_eq_left he), hk,
    roundHalfEven_half, if_pos hev]

theorem lt_two_zpow_exponent {x : ℚ} :
    |x| < (2 : ℚ) ^ (max (Int.log 2 |x|) (-1022) + 1) := by
  have h := Int.lt_zpow_succ_log_self (b := 2) (by norm_num) |x|
  have h' : |x| < (2 : ℚ) ^ (Int.log 2 |x| + 1) := by exact_mod_cast h
  exact lt_of_lt_of_le h' (zpow_le_zpow_right₀ (by norm_num) (by omega))

theorem roundToDouble_le_two_zpow (x : ℚ) :
    roundToDouble x ≤ (2 : ℚ) ^ (max (Int.log 2 |x|) (-1022) + 1) := by
  set e := max (Int.log 2 |x|) (-1022) with he
  have hlt : x < (2 : ℚ) ^ (e + 1) :=
    lt_of_le_of_lt (le_abs_self x) lt_two_zpow_exponent
  have hs : x * (2 : ℚ) ^ (52 - e) ≤ ((2 ^ 53 : ℤ) : ℚ) := by
    have h2 : (2 : ℚ) ^ (e + 1) * (2 : ℚ) ^ (52 - e) = ((2 ^ 53 : ℤ) : ℚ) := by
      rw [← zpow_add₀ (by norm_num : (2 : ℚ) ≠ 0)]
      have : e + 1 + (52 - e) = 53 := by ring
      rw [this]; norm_num
    rw [← h2]
    exact mul_le_mul_of_nonneg_right hlt.le (two_zpow_pos _).le
  have hr : roundHalfEven (x * (2 : ℚ) ^ (52 - e)) ≤ 2 ^ 53 := by
    have := roundHalfEven_mono hs
    rwa [roundHalfEven_intCast] at this
  have hr' : (roundHalfEven (x * (2 : ℚ) ^ (52 - e)) : ℚ) ≤ ((2 ^ 53 : ℤ) : ℚ) := by
    exact_mod_cast hr
  calc roundToDouble x
      = (roundHalfEven (x * (2 : ℚ) ^ (52 - e)) : ℚ) * (2 : ℚ) ^ (e - 52) := rfl
    _ ≤ ((2 ^ 53 : ℤ) : ℚ) * (2 : ℚ) ^ (e - 52) :=
        mul_le_mul_of_nonneg_right hr' (two_zpow_pos _).le
    _ = (2 : ℚ) ^ (e + 1) := by
        have h53 : ((2 ^ 53 : ℤ) : ℚ) = (2 : ℚ) ^ (53 : ℤ) := by norm_num
        rw [h53, ← zpow_add₀ (by norm_num : (2 : ℚ) ≠ 0)]
        congr 1; ring

theorem two_zpow_le_roundToDouble {x : ℚ} (hx : 0 < x) (hn : -1022 ≤ Int.log 2 |x|) :
    (2 : ℚ) ^ (Int.log 2 |x|) ≤ roundToDouble x := by
  have he : max (Int.log 2 |x|) (-1022) = Int.log 2 |x| := max_eq_left hn
  set e := Int.log 2 |x| with hedef
  have hle : (2 : ℚ) ^ e ≤ x := by
    have := Int.zpow_log_le_self (b := 2) (r := |x|) (by norm_num) (abs_pos.2 hx.ne')
    rw [abs_of_pos hx] at this
    rw [hedef, abs_of_pos hx]
    exact_mod_cast this
  have hs : ((2 ^ 52 : ℤ) : ℚ) ≤ x * (2 : ℚ) ^ (52 - e) := by
    have h2 : (2 : ℚ) ^ e * (2 : ℚ) ^ (52 - e) = ((2 ^ 52 : ℤ) : ℚ) := by
      rw [← zpow_add₀ (by norm_num : (2 : ℚ) ≠ 0)]
      have : e + (52 - e) = 52 := by ring
      rw [this]; norm_num
    rw [← h2]
    exact mul_le_mul_of_nonneg_right hle (two_zpow_pos _).le
  have hr : 2 ^ 52 ≤ roundHalfEven (x * (2 : ℚ) ^ (52 - e)) := by
    have := roundHalfEven_mono hs
    rwa [roundHalfEven_intCast] at this
  have hr' : ((2 ^ 52 : ℤ) : ℚ) ≤ (roundHalfEven (x * (2 : ℚ) ^ (52 - e)) : ℚ) := by
    exact_mod_cast hr
  rw [roundToDouble_eq_of_exponent x e he]
  calc (2 : ℚ) ^ e = ((2 ^ 52 : ℤ) : ℚ) * (2 : ℚ) ^ (e - 52) := by
        have h52 : ((2 ^ 52 : ℤ) : ℚ) = (2 : ℚ) ^ (52 : ℤ) := by norm_num
        rw [h52, ← zpow_add₀ (by norm_num : (2 : ℚ) ≠ 0)]
        congr 1; ring
    _ ≤ _ := mul_le_mul_of_nonneg_right hr' (two_zpow_pos _).le

theorem roundToDouble_mono_of_pos {x y : ℚ} (hx : 0 < x) (h : x ≤ y) :
    roundToDouble x ≤ roundToDouble y := by
  have hy : 0 < y := lt_of_lt_of_le hx h
  have hlog : Int.log 2 |x| ≤ Int.log 2 |y| := by
    rw [abs_of_pos hx, abs_of_pos hy]
    exact Int.log_mono_right hx h
  rcases eq_or_lt_of_le (max_le_max hlog (le_refl (-1022 : ℤ))) with heq | hlt
  · rw [roundToDouble_eq_of_exponent x _ rfl, roundToDouble_eq_of_exponent y _ heq.symm]
    apply mul_le_mul_of_nonneg_right _ (two_zpow_pos _).le
    have := roundHalfEven_mono
      (mul_le_mul_of_nonneg_right h (two_zpow_pos (52 - max (Int.log 2 |x|) (-1022))).le)
    exact_mod_cast this
  · have hny : -1022 ≤ Int.log 2 |y| := by
      by_contra hc
      rw [max_eq_right (by omega : Int.log 2 |y| ≤ -1022)] at hlt
      have := le_max_right (Int.log 2 |x|) (-1022)
      omega
    have hey : max (Int.log 2 |y|) (-1022) = Int.log 2 |y| := max_eq_left hny
    rw [hey] at hlt
    calc roundToDouble x ≤ (2 : ℚ) ^ (max (Int.log 2 |x|) (-1022) + 1) :=
          roundToDouble_le_two_zpow x
      _ ≤ (2 : ℚ) ^ (Int.log 2 |y|) := zpow_le_zpow_right₀ (by norm_num) (by omega)
      _ ≤ roundToDouble y := two_zpow_le_roundToDouble hy hny

theorem roundToDouble_mono {x y : ℚ} (h : x ≤ y) : roundToDouble x ≤ roundToDouble y := by
  rcases lt_trichotomy 0 x with hx | hx | hx
  · exact roundToDouble_mono_of_pos hx h
  · rw [← hx, roundToDouble_zero]
    exact roundToDouble_nonneg (hx ▸ h)
  · rcases le_or_lt 0 y with hy | hy
    · have h1 : roundToDouble x ≤ 0 := by
        have := roundToDouble_nonneg (x := -x) (by linarith)
        rw [roundToDouble_neg] at this
        linarith
      exact le_trans h1 (roundToDouble_nonneg hy)
    · have := roundToDouble_mono_of_pos (x := -y) (y := -x) (by linarith) (by linarith)
      rw [roundToDouble_neg, roundToDouble_neg] at this
      linarith

/-- In the normal range the rounding error is at most `2 ^ (-53)` relative to the argument. -/
theorem abs_roundToDouble_sub_le {x : ℚ} (hx : (2 : ℚ) ^ (-1022 : ℤ) ≤ |x|) :
    |roundToDouble x - x| ≤ |x| * (2 : ℚ) ^ (-53 : ℤ) := by
  have hpos : 0 < |x| := lt_of_lt_of_le (two_zpow_pos _) hx
  have hn : -1022 ≤ Int.log 2 |x| :=
    (Int.zpow_le_iff_le_log (by norm_num) hpos).1 (by exact_mod_cast hx)
  have he : max (Int.log 2 |x|) (-1022) = Int.log 2 |x| := max_eq_left hn
  set e := Int.log 2 |x| with hedef
  have hle : (2 : ℚ) ^ e ≤ |x| := by
    have := Int.zpow_log_le_self (b := 2) (r := |x|) (by norm_num) hpos
    exact_mod_cast this
  rw [roundToDouble_eq_of_exponent x e he]
  have hr := abs_roundHalfEven_sub_le (x * (2 : ℚ) ^ (52 - e))
  have hs : (0 : ℚ) < (2 : ℚ) ^ (e - 52) := two_zpow_pos _
  have hmul : (2 : ℚ) ^ (52 - e) * (2 : ℚ) ^ (e - 52) = 1 := by
    rw [← zpow_add₀ (by norm_num : (2 : ℚ) ≠ 0)]
    have : 52 - e + (e - 52) = 0 := by ring
    rw [this]; simp
  have hkey : (roundHalfEven (x * (2 : ℚ) ^ (52 - e)) : ℚ) * (2 : ℚ) ^ (e - 52) - x =
      ((roundHalfEven (x * (2 : ℚ) ^ (52 - e)) : ℚ) - x * (2 : ℚ) ^ (52 - e)) *
        (2 : ℚ) ^ (e - 52) := by
    rw [sub_mul, mul_assoc, hmul, mul_one]
  rw [hkey, abs_mul, abs_of_pos hs]
  calc |(roundHalfEven (x * (2 : ℚ) ^ (52 - e)) : ℚ) - x * (2 : ℚ) ^ (52 - e)| *
        (2 : ℚ) ^ (e - 52)
      ≤ 1 / 2 * (2 : ℚ) ^ (e - 52) := mul_le_mul_of_nonneg_right hr hs.le
    _ = (2 : ℚ) ^ e * (2 : ℚ) ^ (-53 : ℤ) := by
        rw [← zpow_add₀ (by norm_num : (2 : ℚ) ≠ 0)]
        have h1 : (1 / 2 : ℚ) = (2 : ℚ) ^ (-1 : ℤ) := by norm_num
        rw [h1, ← zpow_add₀ (by norm_num : (2 : ℚ) ≠ 0)]
        congr 1; ring
    _ ≤ |x| * (2 : ℚ) ^ (-53 : ℤ) := mul_le_mul_of_nonneg_right hle (two_zpow_pos _).le

theorem double_1_3 : double 1.3 = 5854679515581645 / 4503599627370496 := by
  unfold double
  rw [show (1.3 : ℚ) = 13 / 10 by norm_num,
    roundToDouble_eq (13 / 10) (0) 5854679515581645 (by norm_num) (by norm_num)
    (by norm_num) (by norm_num [abs_lt])]
  norm_num

theorem roundToDouble_five : roundToDouble 5 = 5 := by
  rw [roundToDouble_eq 5 2 5629499534213120 (by norm_num) (by norm_num)
    (by norm_num) (by norm_num [abs_lt])]
  norm_num

theorem roundToDouble_le_five {x : ℚ} (h : x ≤ 5) : roundToDouble x ≤ 5 := by
  have := roundToDouble_mono h
  rwa [roundToDouble_five] at this

theorem jsMul_zero (a : ℚ) : jsMul a 0 = 0 := by
  simp [jsMul, roundToDouble_zero]

theorem jsAdd_zero (a : ℚ) : jsAdd a 0 = roundToDouble a := by
  simp [jsAdd]

theorem jsMul_one (a : ℚ) : jsMul a 1 = roundToDouble a := by
  simp [jsMul]

theorem one_jsMul (a : ℚ) : jsMul 1 a = roundToDouble a := by
  simp [jsMul]

/-! ## Values of the literals and of the scenario arithmetic -/

theorem double_0_8 : double 0.8 = 3602879701896397 / 4503599627370496 := by
  unfold double
  rw [show (0.8 : ℚ) = 4 / 5 by norm_num,
    roundToDouble_eq (4 / 5) (-1) 7205759403792794 (by norm_num) (by norm_num)
    (by norm_num) (by norm_num [abs_lt])]
  norm_num

theorem double_0_15 : double 0.15 = 5404319552844595 / 36028797018963968 := by
  unfold double
  rw [show (0.15 : ℚ) = 3 / 20 by norm_num,
    roundToDouble_eq (3 / 20) (-3) 5404319552844595 (by norm_num) (by norm_num)
    (by norm_num) (by norm_num [abs_lt])]
  norm_num

theorem double_0_85 : double 0.85 = 7656119366529843 / 9007199254740992 := by
  unfold double
  rw [show (0.85 : ℚ) = 17 / 20 by norm_num,
    roundToDouble_eq (17 / 20) (-1) 7656119366529843 (by norm_num) (by norm_num)
    (by norm_num) (by norm_num [abs_lt])]
  norm_num

theorem double_0_05 : double 0.05 = 3602879701896397 / 72057594037927936 := by
  unfold double
  rw [show (0.05 : ℚ) = 1 / 20 by norm_num,
    roundToDouble_eq (1 / 20) (-5) 7205759403792794 (by norm_num) (by norm_num)
    (by norm_num) (by norm_num [abs_lt])]
  norm_num

theorem double_0_1 : double 0.1 = 3602879701896397 / 36028797018963968 := by
  unfold double
  rw [show (0.1 : ℚ) = 1 / 10 by norm_num,
    roundToDouble_eq (1 / 10) (-4) 7205759403792794 (by norm_num) (by norm_num)
    (by norm_num) (by norm_num [abs_lt])]
  norm_num

theorem double_0_08 : double 0.08 = 5764607523034235 / 72057594037927936 := by
  unfold double
  rw [show (0.08 : ℚ) = 2 / 25 by norm_num,
    roundToDouble_eq (2 / 25) (-4) 5764607523034235 (by norm_num) (by norm_num)
    (by norm_num) (by norm_num [abs_lt])]
  norm_num

theorem double_0_02 : double 0.02 = 5764607523034235 / 288230376151711744 := by
  unfold double
  rw [show (0.02 : ℚ) = 1 / 50 by norm_num,
    roundToDouble_eq (1 / 50) (-6) 5764607523034235 (by norm_num) (by norm_num)
    (by norm_num) (by norm_num [abs_lt])]
  norm_num

theorem double_0_01 : double 0.01 = 5764607523034235 / 576460752303423488 := by
  unfold double
  rw [show (0.01 : ℚ) = 1 / 100 by norm_num,
    roundToDouble_eq (1 / 100) (-7) 5764607523034235 (by norm_num) (by norm_num)
    (by norm_num) (by norm_num [abs_lt])]
  norm_num

theorem double_1_85 : double 1.85 = 4165829655317709 / 2251799813685248 := by
  unfold double
  rw [show (1.85 : ℚ) = 37 / 20 by norm_num,
    roundToDouble_eq (37 / 20) (0) 8331659310635418 (by norm_num) (by norm_num)
    (by norm_num) (by norm_num [abs_lt])]
  norm_num

theorem double_2_52 : double 2.52 = 5674535530486825 / 2251799813685248 := by
  unfold double
  rw [show (2.52 : ℚ) = 63 / 25 by norm_num,
    roundToDouble_eq (63 / 25) (1) 5674535530486825 (by norm_num) (by norm_num)
    (by norm_num) (by norm_num [abs_lt])]
  norm_num

theorem double_1_86 : double 1.86 = 8376695306909123 / 4503599627370496 := by
  unfold double
  rw [show (1.86 : ℚ) = 93 / 50 by norm_num,
    roundToDouble_eq (93 / 50) (0) 8376695306909123 (by norm_num) (by norm_num)
    (by norm_num) (by norm_num [abs_lt])]
  norm_num

theorem double_1_38 : double 1.38 = 1553741871442821 / 1125899906842624 := by
  unfold double
  rw [show (1.38 : ℚ) = 69 / 50 by norm_num,
    roundToDouble_eq (69 / 50) (0) 6214967485771284 (by norm_num) (by norm_num)
    (by norm_num) (by norm_num [abs_lt])]
  norm_num

theorem jsMul_scenarioB : jsMul 2.5 (3602879701896397 / 4503599627370496) = 2 := by
  unfold jsMul
  rw [show (2.5 : ℚ) * (3602879701896397 / 4503599627370496) = 18014398509481985 / 9007199254740992 by norm_num,
    roundToDouble_eq (18014398509481985 / 9007199254740992) (1) 4503599627370496 (by norm_num) (by norm_num)
    (by norm_num) (by norm_num [abs_lt])]
  norm_num

theorem jsSub_scenarioB : jsSub 2 (5404319552844595 / 36028797018963968) = 4165829655317709 / 2251799813685248 := by
  unfold jsSub
  rw [show (2 : ℚ) - (5404319552844595 / 36028797018963968) = 66653274485083341 / 36028797018963968 by norm_num,
    roundToDouble_eq (66653274485083341 / 36028797018963968) (0) 8331659310635418 (by norm_num) (by norm_num)
    (by norm_num) (by norm_num [abs_lt])]
  norm_num

theorem jsAdd_2_5_0_1 : jsAdd 2.5 (3602879701896397 / 36028797018963968) = 5854679515581645 / 2251799813685248 := by
  unfold jsAdd
  rw [show (2.5 : ℚ) + (3602879701896397 / 36028797018963968) = 93674872249306317 / 36028797018963968 by norm_num,
    roundToDouble_eq (93674872249306317 / 36028797018963968) (1) 5854679515581645 (by norm_num) (by norm_num)
    (by norm_num) (by norm_num [abs_lt])]
  norm_num

theorem roundToDouble_0_08 : roundToDouble (5764607523034235 / 72057594037927936) = 5764607523034235 / 72057594037927936 := by
  rw [roundToDouble_eq (5764607523034235 / 72057594037927936) (-4) 5764607523034235 (by norm_num) (by norm_num)
    (by norm_num) (by norm_num [abs_lt])]
  norm_num

theorem jsSub_scenarioA : jsSub (5854679515581645 / 2251799813685248) (5764607523034235 / 72057594037927936) = 5674535530486825 / 2251799813685248 := by
  unfold jsSub
  rw [show ((5854679515581645 / 2251799813685248) : ℚ) - (5764607523034235 / 72057594037927936) = 181585136975578405 / 72057594037927936 by norm_num,
    roundToDouble_eq (181585136975578405 / 72057594037927936) (1) 5674535530486825 (by norm_num) (by norm_num)
    (by norm_num) (by norm_num [abs_lt])]
  norm_num

theorem roundToDouble_0_02 : roundToDouble (5764607523034235 / 288230376151711744) = 5764607523034235 / 288230376151711744 := by
  rw [roundToDouble_eq (5764607523034235 / 288230376151711744) (-6) 5764607523034235 (by norm_num) (by norm_num)
    (by norm_num) (by norm_num [abs_lt])]
  norm_num

theorem jsAdd_0_08_0_02 : jsAdd (5764607523034235 / 72057594037927936) (5764607523034235 / 288230376151711744) = 3602879701896397 / 36028797018963968 := by
  unfold jsAdd
  rw [show ((5764607523034235 / 72057594037927936) : ℚ) + (5764607523034235 / 288230376151711744) = 28823037615171175 / 288230376151711744 by norm_num,
    roundToDouble_eq (28823037615171175 / 288230376151711744) (-4) 7205759403792794 (by norm_num) (by norm_num)
    (by norm_num) (by norm_num [abs_lt])]
  norm_num

theorem jsSub_graduated : jsSub (5854679515581645 / 2251799813685248) (3602879701896397 / 36028797018963968) = 5 / 2 := by
  unfold jsSub
  rw [show ((5854679515581645 / 2251799813685248) : ℚ) - (3602879701896397 / 36028797018963968) = 90071992547409923 / 36028797018963968 by norm_num,
    roundToDouble_eq (90071992547409923 / 36028797018963968) (1) 5629499534213120 (by norm_num) (by norm_num)
    (by norm_num) (by norm_num [abs_lt])]
  norm_num

theorem roundToDouble_2_5 : roundToDouble (5 / 2) = 5 / 2 := by
  rw [roundToDouble_eq (5 / 2) (1) 5629499534213120 (by norm_num) (by norm_num)
    (by norm_num) (by norm_num [abs_lt])]
  norm_num

theorem roundToDouble_one : roundToDouble 1 = 1 := by
  rw [roundToDouble_eq 1 (0) 4503599627370496 (by norm_num) (by norm_num)
    (by norm_num) (by norm_num [abs_lt])]
  norm_num

theorem roundToDouble_hundred : roundToDouble 100 = 100 := by
  rw [roundToDouble_eq 100 (6) 7036874417766400 (by norm_num) (by norm_num)
    (by norm_num) (by norm_num [abs_lt])]
  norm_num

theorem jsDiv_23_40 : jsDiv 23 40 = 2589569785738035 / 4503599627370496 := by
  unfold jsDiv
  rw [show (23 : ℚ) / 40 = 23 / 40 by norm_num,
    roundToDouble_eq (23 / 40) (-1) 5179139571476070 (by norm_num) (by norm_num)
    (by norm_num) (by norm_num [abs_lt])]
  norm_num

theorem jsMul_23_40_100 : jsMul (2589569785738035 / 4503599627370496) 100 = 8092405580431359 / 140737488355328 := by
  unfold jsMul
  rw [show ((2589569785738035 / 4503599627370496) : ℚ) * 100 = 64739244643450875 / 1125899906842624 by norm_num,
    roundToDouble_eq (64739244643450875 / 1125899906842624) (5) 8092405580431359 (by norm_num) (by norm_num)
    (by norm_num) (by norm_num [abs_lt])]
  norm_num

theorem jsDiv_50_5 : jsDiv 50 5 = 10 := by
  unfold jsDiv
  rw [show (50 : ℚ) / 5 = 10 by norm_num,
    roundToDouble_eq (10) (3) 5629499534213120 (by norm_num) (by norm_num)
    (by norm_num) (by norm_num [abs_lt])]
  norm_num

theorem jsDiv_75_10 : jsDiv 75 10 = 15 / 2 := by
  unfold jsDiv
  rw [show (75 : ℚ) / 10 = 15 / 2 by norm_num,
    roundToDouble_eq (15 / 2) (2) 8444249301319680 (by norm_num) (by norm_num)
    (by norm_num) (by norm_num [abs_lt])]
  norm_num

theorem jsDiv_1_3 : jsDiv 1 3 = 6004799503160661 / 18014398509481984 := by
  unfold jsDiv
  rw [show (1 : ℚ) / 3 = 1 / 3 by norm_num,
    roundToDouble_eq (1 / 3) (-2) 6004799503160661 (by norm_num) (by norm_num)
    (by norm_num) (by norm_num [abs_lt])]
  norm_num

theorem jsMul_third_10 : jsMul (6004799503160661 / 18014398509481984) 10 = 3752999689475413 / 1125899906842624 := by
  unfold jsMul
  rw [show ((6004799503160661 / 18014398509481984) : ℚ) * 10 = 30023997515803305 / 9007199254740992 by norm_num,
    roundToDouble_eq (30023997515803305 / 9007199254740992) (1) 7505999378950826 (by norm_num) (by norm_num)
    (by norm_num) (by norm_num [abs_lt])]
  norm_num

theorem jsDiv_3_10 : jsDiv 3 10 = 5404319552844595 / 18014398509481984 := by
  unfold jsDiv
  rw [show (3 : ℚ) / 10 = 3 / 10 by norm_num,
    roundToDouble_eq (3 / 10) (-2) 5404319552844595 (by norm_num) (by norm_num)
    (by norm_num) (by norm_num [abs_lt])]
  norm_num

theorem roundToDouble_1_38 : roundToDouble (1553741871442821 / 1125899906842624) = 1553741871442821 / 1125899906842624 := by
  rw [roundToDouble_eq (1553741871442821 / 1125899906842624) (0) 6214967485771284 (by norm_num) (by norm_num)
    (by norm_num) (by norm_num [abs_lt])]
  norm_num

theorem jsMul_1_38_25 : jsMul (1553741871442821 / 1125899906842624) 25 = 69 / 2 := by
  unfold jsMul
  rw [show ((1553741871442821 / 1125899906842624) : ℚ) * 25 = 38843546786070525 / 1125899906842624 by norm_num,
    roundToDouble_eq (38843546786070525 / 1125899906842624) (5) 4855443348258816 (by norm_num) (by norm_num)
    (by norm_num) (by norm_num [abs_lt])]
  norm_num

theorem roundToDouble_34_5 : roundToDouble (69 / 2) = 69 / 2 := by
  rw [roundToDouble_eq (69 / 2) (5) 4855443348258816 (by norm_num) (by norm_num)
    (by norm_num) (by norm_num [abs_lt])]
  norm_num

theorem jsMul_2_5_2 : jsMul (5 / 2) 2 = 5 := by
  unfold jsMul
  rw [show ((5 / 2) : ℚ) * 2 = 5 by norm_num,
    roundToDouble_eq (5) (2) 5629499534213120 (by norm_num) (by norm_num)
    (by norm_num) (by norm_num [abs_lt])]
  norm_num

theorem jsAdd_1_86_0_15 : jsAdd (8376695306909123 / 4503599627370496) (5404319552844595 / 36028797018963968) = 4526117625507349 / 2251799813685248 := by
  unfold jsAdd
  rw [show ((8376695306909123 / 4503599627370496) : ℚ) + (5404319552844595 / 36028797018963968) = 72417882008117579 / 36028797018963968 by norm_num,
    roundToDouble_eq (72417882008117579 / 36028797018963968) (1) 4526117625507349 (by norm_num) (by norm_num)
    (by norm_num) (by norm_num [abs_lt])]
  norm_num

theorem roundToDouble_0_15 : roundToDouble (5404319552844595 / 36028797018963968) = 5404319552844595 / 36028797018963968 := by
  rw [roundToDouble_eq (5404319552844595 / 36028797018963968) (-3) 5404319552844595 (by norm_num) (by norm_num)
    (by norm_num) (by norm_num [abs_lt])]
  norm_num

theorem jsSub_1_86_easy : jsSub (4526117625507349 / 2251799813685248) (5404319552844595 / 36028797018963968) = 2094173826727281 / 1125899906842624 := by
  unfold jsSub
  rw [show ((4526117625507349 / 2251799813685248) : ℚ) - (5404319552844595 / 36028797018963968) = 67013562455272989 / 36028797018963968 by norm_num,
    roundToDouble_eq (67013562455272989 / 36028797018963968) (0) 8376695306909124 (by norm_num) (by norm_num)
    (by norm_num) (by norm_num [abs_lt])]
  norm_num

theorem jsMul_1_85_0_8 : jsMul (4165829655317709 / 2251799813685248) (3602879701896397 / 4503599627370496) = 6665327448508335 / 4503599627370496 := by
  unfold jsMul
  rw [show ((4165829655317709 / 2251799813685248) : ℚ) * (3602879701896397 / 4503599627370496) = 15008983106702237667462837394473 / 10141204801825835211973625643008 by norm_num,
    roundToDouble_eq (15008983106702237667462837394473 / 10141204801825835211973625643008) (0) 6665327448508335 (by norm_num) (by norm_num)
    (by norm_num) (by norm_num [abs_lt])]
  norm_num

theorem jsSub_again_twice : jsSub (6665327448508335 / 4503599627370496) (5404319552844595 / 36028797018963968) = 5989787504402761 / 4503599627370496 := by
  unfold jsSub
  rw [show ((6665327448508335 / 4503599627370496) : ℚ) - (5404319552844595 / 36028797018963968) = 47918300035222085 / 36028797018963968 by norm_num,
    roundToDouble_eq (47918300035222085 / 36028797018963968) (0) 5989787504402761 (by norm_num) (by norm_num)
    (by norm_num) (by norm_num [abs_lt])]
  norm_num

theorem jsMul_2_375_0_85 : jsMul (19 / 8) (7656119366529843 / 9007199254740992) = 2272910436938547 / 1125899906842624 := by
  unfold jsMul
  rw [show ((19 / 8) : ℚ) * (7656119366529843 / 9007199254740992) = 145466267964067017 / 72057594037927936 by norm_num,
    roundToDouble_eq (145466267964067017 / 72057594037927936) (1) 4545820873877094 (by norm_num) (by norm_num)
    (by norm_num) (by norm_num [abs_lt])]
  norm_num

theorem jsSub_2_375_hard : jsSub (2272910436938547 / 1125899906842624) (3602879701896397 / 72057594037927936) = 8866461766385663 / 4503599627370496 := by
  unfold jsSub
  rw [show ((2272910436938547 / 1125899906842624) : ℚ) - (3602879701896397 / 72057594037927936) = 141863388262170611 / 72057594037927936 by norm_num,
    roundToDouble_eq (141863388262170611 / 72057594037927936) (0) 8866461766385663 (by norm_num) (by norm_num)
    (by norm_num) (by norm_num [abs_lt])]
  norm_num

theorem roundToDouble_1_96875 : roundToDouble (8866461766385663 / 4503599627370496) = 8866461766385663 / 4503599627370496 := by
  rw [roundToDouble_eq (8866461766385663 / 4503599627370496) (0) 8866461766385663 (by norm_num) (by norm_num)
    (by norm_num) (by norm_num [abs_lt])]
  norm_num

theorem jsMul_1_96875_16 : jsMul (8866461766385663 / 4503599627370496) 16 = 8866461766385663 / 281474976710656 := by
  unfold jsMul
  rw [show ((8866461766385663 / 4503599627370496) : ℚ) * 16 = 8866461766385663 / 281474976710656 by norm_num,
    roundToDouble_eq (8866461766385663 / 281474976710656) (4) 8866461766385663 (by norm_num) (by norm_num)
    (by norm_num) (by norm_num [abs_lt])]
  norm_num

theorem roundToDouble_31_5 : roundToDouble (8866461766385663 / 281474976710656) = 8866461766385663 / 281474976710656 := by
  rw [roundToDouble_eq (8866461766385663 / 281474976710656) (4) 8866461766385663 (by norm_num) (by norm_num)
    (by norm_num) (by norm_num [abs_lt])]
  norm_num

theorem double_2_51 : double 2.51 = 1413004383087493 / 562949953421312 := by
  unfold double
  rw [show (2.51 : ℚ) = 251 / 100 by norm_num,
    roundToDouble_eq (251 / 100) (1) 5652017532349972 (by norm_num) (by norm_num)
    (by norm_num) (by norm_num [abs_lt])]
  norm_num

theorem jsAdd_2_51_0_15 : jsAdd (1413004383087493 / 562949953421312) (5404319552844595 / 36028797018963968) = 5989787504402759 / 2251799813685248 := by
  unfold jsAdd
  rw [show ((1413004383087493 / 562949953421312) : ℚ) + (5404319552844595 / 36028797018963968) = 95836600070444147 / 36028797018963968 by norm_num,
    roundToDouble_eq (95836600070444147 / 36028797018963968) (1) 5989787504402759 (by norm_num) (by norm_num)
    (by norm_num) (by norm_num [abs_lt])]
  norm_num

theorem roundToDouble_0_01 : roundToDouble (5764607523034235 / 576460752303423488) = 5764607523034235 / 576460752303423488 := by
  rw [roundToDouble_eq (5764607523034235 / 576460752303423488) (-7) 5764607523034235 (by norm_num) (by norm_num)
    (by norm_num) (by norm_num [abs_lt])]
  norm_num

theorem jsAdd_0_15_0_01 : jsAdd (5404319552844595 / 36028797018963968) (5764607523034235 / 576460752303423488) = 5764607523034235 / 36028797018963968 := by
  unfold jsAdd
  rw [show ((5404319552844595 / 36028797018963968) : ℚ) + (5764607523034235 / 576460752303423488) = 92233720368547755 / 576460752303423488 by norm_num,
    roundToDouble_eq (92233720368547755 / 576460752303423488) (-3) 5764607523034235 (by norm_num) (by norm_num)
    (by norm_num) (by norm_num [abs_lt])]
  norm_num

theorem jsSub_2_51_easy : jsSub (5989787504402759 / 2251799813685248) (5764607523034235 / 36028797018963968) = 5629499534213119 / 2251799813685248 := by
  unfold jsSub
  rw [show ((5989787504402759 / 2251799813685248) : ℚ) - (5764607523034235 / 36028797018963968) = 90071992547409909 / 36028797018963968 by norm_num,
    roundToDouble_eq (90071992547409909 / 36028797018963968) (1) 5629499534213119 (by norm_num) (by norm_num)
    (by norm_num) (by norm_num [abs_lt])]
  norm_num

theorem roundToDouble_2_4999 : roundToDouble (5629499534213119 / 2251799813685248) = 5629499534213119 / 2251799813685248 := by
  rw [roundToDouble_eq (5629499534213119 / 2251799813685248) (1) 5629499534213119 (by norm_num) (by norm_num)
    (by norm_num) (by norm_num [abs_lt])]
  norm_num

theorem jsMul_2_4999_2 : jsMul (5629499534213119 / 2251799813685248) 2 = 5629499534213119 / 1125899906842624 := by
  unfold jsMul
  rw [show ((5629499534213119 / 2251799813685248) : ℚ) * 2 = 5629499534213119 / 1125899906842624 by norm_num,
    roundToDouble_eq (5629499534213119 / 1125899906842624) (2) 5629499534213119 (by norm_num) (by norm_num)
    (by norm_num) (by norm_num [abs_lt])]
  norm_num

theorem jsMul_4_9999_1_5 : jsMul (5629499534213119 / 1125899906842624) (3 / 2) = 4222124650659839 / 562949953421312 := by
  unfold jsMul
  rw [show ((5629499534213119 / 1125899906842624) : ℚ) * (3 / 2) = 16888498602639357 / 2251799813685248 by norm_num,
    roundToDouble_eq_tie (16888498602639357 / 2251799813685248) (2) 8444249301319678 (by norm_num) (by norm_num)
    (by norm_num) (by norm_num) (by decide)]
  norm_num

theorem double_2_3 : double 2.3 = 2589569785738035 / 1125899906842624 := by
  unfold double
  rw [show (2.3 : ℚ) = 23 / 10 by norm_num,
    roundToDouble_eq (23 / 10) (1) 5179139571476070 (by norm_num) (by norm_num)
    (by norm_num) (by norm_num [abs_lt])]
  norm_num

theorem roundToDouble_2_3 : roundToDouble (2589569785738035 / 1125899906842624) = 2589569785738035 / 1125899906842624 := by
  rw [roundToDouble_eq (2589569785738035 / 1125899906842624) (1) 5179139571476070 (by norm_num) (by norm_num)
    (by norm_num) (by norm_num [abs_lt])]
  norm_num

theorem jsMul_2_3_25 : jsMul (2589569785738035 / 1125899906842624) 25 = 8092405580431359 / 140737488355328 := by
  unfold jsMul
  rw [show ((2589569785738035 / 1125899906842624) : ℚ) * 25 = 64739244643450875 / 1125899906842624 by norm_num,
    roundToDouble_eq (64739244643450875 / 1125899906842624) (5) 8092405580431359 (by norm_num) (by norm_num)
    (by norm_num) (by norm_num [abs_lt])]
  norm_num

theorem roundToDouble_57_5 : roundToDouble (8092405580431359 / 140737488355328) = 8092405580431359 / 140737488355328 := by
  rw [roundToDouble_eq (8092405580431359 / 140737488355328) (5) 8092405580431359 (by norm_num) (by norm_num)
    (by norm_num) (by norm_num [abs_lt])]
  norm_num

theorem jsDiv_7_5 : jsDiv 7 5 = 3152519739159347 / 2251799813685248 := by
  unfold jsDiv
  rw [show (7 : ℚ) / 5 = 7 / 5 by norm_num,
    roundToDouble_eq (7 / 5) (0) 6305039478318694 (by norm_num) (by norm_num)
    (by norm_num) (by norm_num [abs_lt])]
  norm_num

theorem jsDiv_21_1_4 : jsDiv 21 (3152519739159347 / 2251799813685248) = 8444249301319681 / 562949953421312 := by
  unfold jsDiv
  rw [show (21 : ℚ) / (3152519739159347 / 2251799813685248) = 47287796087390208 / 3152519739159347 by norm_num,
    roundToDouble_eq (47287796087390208 / 3152519739159347) (3) 8444249301319681 (by norm_num) (by norm_num)
    (by norm_num) (by norm_num [abs_lt])]
  norm_num

theorem double_1_33 : double 1.33 = 748723438050345 / 562949953421312 := by
  unfold double
  rw [show (1.33 : ℚ) = 133 / 100 by norm_num,
    roundToDouble_eq (133 / 100) (0) 5989787504402760 (by norm_num) (by norm_num)
    (by norm_num) (by norm_num [abs_lt])]
  norm_num

theorem percent_mem (c t : ℚ) (h0 : 0 ≤ c) (hle : c ≤ t) (ht : 0 < t) :
    0 ≤ jsMul (jsDiv c t) 100 ∧ jsMul (jsDiv c t) 100 ≤ 100 := by
  have hd0 : 0 ≤ jsDiv c t := roundToDouble_nonneg (div_nonneg h0 ht.le)
  have hd1 : jsDiv c t ≤ 1 := by
    have := roundToDouble_mono ((div_le_one ht).2 hle)
    rwa [roundToDouble_one] at this
  constructor
  · exact roundToDouble_nonneg (mul_nonneg hd0 (by norm_num))
  · have := roundToDouble_mono (show jsDiv c t * 100 ≤ 100 by linarith)
    rwa [roundToDouble_hundred] at this

/-! ## Auxiliary facts -/

theorem calculateReviewInterval_some (rc : ℤ) (e : ℚ) (d : String) :
    calculateReviewInterval rc (some e) d =
      some (max 1 (min 365 (if rc = 0 then 1 else if rc = 1 then 6
        else mathRound (jsMul (jsMul (jsMul 1 e) rc) (difficultyMultiplier d))))) := by
  unfold calculateReviewInterval baseInterval
  split_ifs <;> simp

theorem gradeUpdate_name (w : Word) (q : Quality) (e : ℚ) (he : w.easeFactor = some e) :
    gradeUpdate w q.name =
      { w with
        easeFactor := some (tableEase q e w.reviewCount)
        reviewCount := tableReviewCount q w.reviewCount
        masteryLevel := tableMastery q w.masteryLevel } := by
  cases q <;>
    simp [gradeUpdate, Quality.name, tableEase, tableReviewCount, tableMastery, mathMax, he,
      minimumEaseFactor]

theorem gradeUpdate_unknown (w : Word) (r : String) (h1 : r ≠ "again") (h2 : r ≠ "hard")
    (h3 : r ≠ "good") (h4 : r ≠ "easy") : gradeUpdate w r = w := by
  simp [gradeUpdate, h1, h2, h3, h4]

theorem calculateNextReview_ok (now : ℤ) (w : Word) (r : String) (i : ℤ)
    (h : calculateReviewInterval (gradeUpdate w r).reviewCount (gradeUpdate w r).easeFactor
      w.difficulty = some i) :
    calculateNextReview now w r =
      Except.ok { gradeUpdate w r with nextReview := now + i * msPerDay, lastReview := some now } := by
  simp [calculateNextReview, h]

theorem double_1_3_ge : (1.3 : ℚ) ≤ double 1.3 := by
  rw [double_1_3]; norm_num

theorem tableEase_ge (q : Quality) (e : ℚ) (rc : ℤ) : (1.3 : ℚ) ≤ tableEase q e rc := by
  cases q <;> exact le_trans double_1_3_ge (le_max_left _ _)

theorem tableMastery_mem (q : Quality) (m : ℚ) (h0 : 0 ≤ m) (h5 : m ≤ 5) :
    0 ≤ tableMastery q m ∧ tableMastery q m ≤ 5 := by
  cases q <;> simp only [tableMastery, jsSub, jsAdd]
  · exact ⟨le_max_left _ _, max_le (by norm_num) (roundToDouble_le_five (by linarith))⟩
  · exact ⟨le_max_left _ _, max_le (by norm_num)
      (roundToDouble_le_five (by norm_num at h5 ⊢; linarith))⟩
  · exact ⟨le_min (by norm_num) (roundToDouble_nonneg (by norm_num at h0 ⊢; linarith)),
      min_le_left _ _⟩
  · exact ⟨le_min (by norm_num) (roundToDouble_nonneg (by linarith)), min_le_left _ _⟩

/-! ## Scheduling engine -/

/-- C1. For a word with ease factor `e` and each of the four qualities, `calculateNextReview`
returns a word whose ease factor, review count and mastery level are the entries of the
per-quality table at the input values, the table's arithmetic being the double arithmetic of
the stored numbers. -/
theorem calculateNextReview_table (now : ℤ) (w : Word) (q : Quality) (e : ℚ)
    (he : w.easeFactor = some e) :
    ∃ w', calculateNextReview now w q.name = Except.ok w' ∧
      w'.easeFactor = some (tableEase q e w.reviewCount) ∧
      w'.reviewCount = tableReviewCount q w.reviewCount ∧
      w'.masteryLevel = tableMastery q w.masteryLevel := by
  obtain ⟨i, hi⟩ : ∃ i, calculateReviewInterval (gradeUpdate w q.name).reviewCount
      (gradeUpdate w q.name).easeFactor w.difficulty = some i := by
    rw [gradeUpdate_name w q e he]
    exact ⟨_, calculateReviewInterval_some _ _ _⟩
  refine ⟨_, calculateNextReview_ok now w q.name i hi, ?_, ?_, ?_⟩ <;>
    simp [gradeUpdate_name w q e he]

/-- Scenario B: review count 2 and ease factor 2.5 graded `again` give the double 1.85 as ease
factor, and review count 0. -/
theorem calculateNextReview_table_witness :
    ∃ w', calculateNextReview 0 scenarioB "again" = Except.ok w' ∧
      w'.easeFactor = some (double 1.85) ∧ w'.reviewCount = 0 ∧ w'.masteryLevel = 0 := by
  obtain ⟨w', h, h1, h2, h3⟩ :=
    calculateNextReview_table 0 scenarioB Quality.again 2.5 rfl
  refine ⟨w', h, ?_, ?_, ?_⟩
  · rw [h1]
    simp only [tableEase]
    rw [double_0_8, jsMul_scenarioB, double_0_15, jsSub_scenarioB, double_1_3, double_1_85,
      max_eq_right (by norm_num)]
  · rw [h2]; rfl
  · rw [h3]
    simp only [tableMastery, scenarioB, jsSub, sub_self, roundToDouble_zero, max_self]

theorem calculateNextReview_fields (now : ℤ) (w w' : Word) (r : String)
    (h : calculateNextReview now w r = Except.ok w') :
    w'.easeFactor = (gradeUpdate w r).easeFactor ∧
    w'.reviewCount = (gradeUpdate w r).reviewCount ∧
    w'.masteryLevel = (gradeUpdate w r).masteryLevel := by
  unfold calculateNextReview at h
  simp only at h
  split at h
  · cases h
  · injection h with h
    subst h
    exact ⟨rfl, rfl, rfl⟩

/-- C2. For a word with ease factor `e`, each of the four qualities and every time `now`,
`calculateNextReview` returns a word with `lastReview = now` and
`nextReview = now + i` days, where `i` is `calculateReviewInterval` at the review count and
the ease factor the returned word stores, those after the quality update, and at the input
word's difficulty. -/
theorem calculateNextReview_schedule (now : ℤ) (w : Word) (q : Quality) (e : ℚ)
    (he : w.easeFactor = some e) :
    ∃ w' i, calculateNextReview now w q.name = Except.ok w' ∧
      w'.reviewCount = tableReviewCount q w.reviewCount ∧
      w'.easeFactor = some (tableEase q e w.reviewCount) ∧
      calculateReviewInterval w'.reviewCount w'.easeFactor w.difficulty = some i ∧
      w'.nextReview = now + i * msPerDay ∧
      w'.lastReview = some now := by
  obtain ⟨i, hi⟩ : ∃ i, calculateReviewInterval (tableReviewCount q w.reviewCount)
      (some (tableEase q e w.reviewCount)) w.difficulty = some i :=
    ⟨_, calculateReviewInterval_some _ _ _⟩
  have hi' : calculateReviewInterval (gradeUpdate w q.name).reviewCount
      (gradeUpdate w q.name).easeFactor w.difficulty = some i := by
    rw [gradeUpdate_name w q e he]; exact hi
  refine ⟨_, i, calculateNextReview_ok now w q.name i hi', ?_, ?_, ?_, rfl, rfl⟩
  · simp [gradeUpdate_name w q e he]
  · simp [gradeUpdate_name w q e he]
  · simpa [gradeUpdate_name w q e he] using hi

theorem tableEase_scenarioA :
    tableEase Quality.good 2.5 scenarioA.reviewCount = double 2.52 := by
  simp only [tableEase, scenarioA, Int.cast_zero, jsMul_zero, jsAdd_zero]
  rw [double_0_08, roundToDouble_0_08, double_0_1, jsAdd_2_5_0_1, jsSub_scenarioA, double_1_3,
    double_2_52, max_eq_right (by norm_num)]

/-- Scenario A: review count 0, ease factor 2.5, difficulty medium graded `good` at time
`now = 1000` gets review count 1 and the double 2.52 as ease factor, and is scheduled six days
later. -/
theorem calculateNextReview_schedule_witness :
    ∃ w', calculateNextReview 1000 scenarioA "good" = Except.ok w' ∧
      w'.reviewCount = 1 ∧ w'.easeFactor = some (double 2.52) ∧
      w'.nextReview = 1000 + 6 * msPerDay ∧ w'.lastReview = some 1000 := by
  obtain ⟨w', i, h, hrc, hease, hi, h1, h2⟩ :=
    calculateNextReview_schedule 1000 scenarioA Quality.good 2.5 rfl
  have hrc1 : w'.reviewCount = 1 := by
    rw [hrc]; simp [tableReviewCount, scenarioA]
  have hi6 : i = 6 := by
    rw [hrc1, hease, calculateReviewInterval_some] at hi
    simpa using hi.symm
  subst hi6
  exact ⟨w', h, hrc1, by rw [hease, tableEase_scenarioA], h1, h2⟩

theorem response_cases (r : String) :
    (∃ q : Quality, r = q.name) ∨
      (r ≠ "again" ∧ r ≠ "hard" ∧ r ≠ "good" ∧ r ≠ "easy") := by
  by_cases h1 : r = "again"
  · exact Or.inl ⟨Quality.again, h1⟩
  by_cases h2 : r = "hard"
  · exact Or.inl ⟨Quality.hard, h2⟩
  by_cases h3 : r = "good"
  · exact Or.inl ⟨Quality.good, h3⟩
  by_cases h4 : r = "easy"
  · exact Or.inl ⟨Quality.easy, h4⟩
  exact Or.inr ⟨h1, h2, h3, h4⟩

/-- C3 (as stated, refuted). The response `"perfect"` is none of the four quality names, yet
`calculateNextReview` raises no error on it: it returns the word with a new schedule, as if
nothing had been graded. -/
theorem calculateNextReview_unrecognised_counterexample :
    (∀ q : Quality, q.name ≠ "perfect") ∧
      calculateNextReview 1000 scenarioA "perfect" =
        Except.ok { scenarioA with nextReview := 1000 + 1 * msPerDay, lastReview := some 1000 } := by
  refine ⟨fun q => by cases q <;> simp [Quality.name], ?_⟩
  have hg : gradeUpdate scenarioA "perfect" = scenarioA :=
    gradeUpdate_unknown _ _ (by decide) (by decide) (by decide) (by decide)
  have hi : calculateReviewInterval (gradeUpdate scenarioA "perfect").reviewCount
      (gradeUpdate scenarioA "perfect").easeFactor scenarioA.difficulty = some 1 := by
    rw [hg]; rfl
  rw [calculateNextReview_ok 1000 scenarioA "perfect" 1 hi, hg]

/-- C3 (amended). For a word with ease factor `e` and a response that is none of the four
quality names, `calculateNextReview` raises no error: it returns the word with ease factor,
review count and mastery level untouched, `lastReview = now` and `nextReview` set
`calculateReviewInterval reviewCount e difficulty` days after `now`. -/
theorem calculateNextReview_unrecognised (now : ℤ) (w : Word) (r : String) (e : ℚ)
    (hr : ∀ q : Quality, r ≠ q.name) (he : w.easeFactor = some e) :
    ∃ i, calculateReviewInterval w.reviewCount (some e) w.difficulty = some i ∧
      calculateNextReview now w r =
        Except.ok { w with nextReview := now + i * msPerDay, lastReview := some now } := by
  have hg : gradeUpdate w r = w :=
    gradeUpdate_unknown w r (hr Quality.again) (hr Quality.hard) (hr Quality.good)
      (hr Quality.easy)
  obtain ⟨i, hi⟩ : ∃ i, calculateReviewInterval w.reviewCount (some e) w.difficulty = some i :=
    ⟨_, calculateReviewInterval_some _ _ _⟩
  refine ⟨i, hi, ?_⟩
  have hi' : calculateReviewInterval (gradeUpdate w r).reviewCount (gradeUpdate w r).easeFactor
      w.difficulty = some i := by
    rw [hg, he]; exact hi
  rw [calculateNextReview_ok now w r i hi', hg]

/-- The amended C3 at Scenario B's word and the response `"unsure"`. -/
theorem calculateNextReview_unrecognised_witness :
    ∃ i, calculateReviewInterval scenarioB.reviewCount (some 2.5) scenarioB.difficulty = some i ∧
      calculateNextReview 7 scenarioB "unsure" =
        Except.ok { scenarioB with nextReview := 7 + i * msPerDay, lastReview := some 7 } :=
  calculateNextReview_unrecognised 7 scenarioB "unsure" 2.5
    (fun q => by cases q <;> simp [Quality.name]) rfl

/-- C4. For a word with ease factor `e`, whatever `e` and the review count are, and each of
the four qualities, `calculateNextReview` returns a word whose ease factor is a number
`>= 1.3`. -/
theorem calculateNextReview_easeFactor_ge (now : ℤ) (w : Word) (q : Quality) (e : ℚ)
    (he : w.easeFactor = some e) :
    ∃ w' e', calculateNextReview now w q.name = Except.ok w' ∧
      w'.easeFactor = some e' ∧ (1.3 : ℚ) ≤ e' := by
  obtain ⟨i, hi⟩ : ∃ i, calculateReviewInterval (gradeUpdate w q.name).reviewCount
      (gradeUpdate w q.name).easeFactor w.difficulty = some i := by
    rw [gradeUpdate_name w q e he]
    exact ⟨_, calculateReviewInterval_some _ _ _⟩
  refine ⟨_, tableEase q e w.reviewCount, calculateNextReview_ok now w q.name i hi, ?_,
    tableEase_ge q e w.reviewCount⟩
  simp [gradeUpdate_name w q e he]

/-- C4 at a word with ease factor 0.2 and review count 40 graded `easy`. -/
theorem calculateNextReview_easeFactor_ge_witness :
    ∃ w' e', calculateNextReview 0 lowEaseWord "easy" = Except.ok w' ∧
      w'.easeFactor = some e' ∧ (1.3 : ℚ) ≤ e' :=
  calculateNextReview_easeFactor_ge 0 lowEaseWord Quality.easy (double 0.2) rfl

/-- C5. For a word with ease factor `e` and mastery level in `[0, 5]`, and every response
(one of the four qualities or not), `calculateNextReview` returns a word whose mastery level
is again in `[0, 5]`. -/
theorem calculateNextReview_masteryLevel_mem (now : ℤ) (w : Word) (r : String) (e : ℚ)
    (he : w.easeFactor = some e) (h0 : 0 ≤ w.masteryLevel) (h5 : w.masteryLevel ≤ 5) :
    ∃ w', calculateNextReview now w r = Except.ok w' ∧
      0 ≤ w'.masteryLevel ∧ w'.masteryLevel ≤ 5 := by
  have key : ∃ e', (gradeUpdate w r).easeFactor = some e' ∧
      0 ≤ (gradeUpdate w r).masteryLevel ∧ (gradeUpdate w r).masteryLevel ≤ 5 := by
    rcases response_cases r with ⟨q, rfl⟩ | ⟨h1, h2, h3, h4⟩
    · rw [gradeUpdate_name w q e he]
      exact ⟨_, rfl, tableMastery_mem q _ h0 h5⟩
    · rw [gradeUpdate_unknown w r h1 h2 h3 h4]
      exact ⟨e, he, h0, h5⟩
  obtain ⟨e', he', hm⟩ := key
  obtain ⟨i, hi⟩ : ∃ i, calculateReviewInterval (gradeUpdate w r).reviewCount
      (gradeUpdate w r).easeFactor w.difficulty = some i := by
    rw [he']; exact ⟨_, calculateReviewInterval_some _ _ _⟩
  exact ⟨_, calculateNextReview_ok now w r i hi, hm⟩

/-- C5 at a word with mastery level 5 graded `easy`: the level stays within `[0, 5]`. -/
theorem calculateNextReview_masteryLevel_mem_witness :
    ∃ w', calculateNextReview 0 masteredWord "easy" = Except.ok w' ∧
      0 ≤ w'.masteryLevel ∧ w'.masteryLevel ≤ 5 :=
  calculateNextReview_masteryLevel_mem 0 masteredWord "easy" 2.5 rfl
    (by norm_num [masteredWord]) (by norm_num [masteredWord])

/-! ## Interval model -/

theorem difficultyMultiplier_name (t : DifficultyTier) :
    difficultyMultiplier t.name = tierMultiplier t := by
  cases t <;> simp [difficultyMultiplier, DifficultyTier.name, tierMultiplier]

theorem max_min_eq_clampInt (x : ℤ) : max 1 (min 365 x) = clampInt 1 365 x := by
  unfold clampInt
  split_ifs with h1 h2
  · rw [min_eq_right (by omega), max_eq_left (by omega)]
  · rw [min_eq_left (by omega)]; simp
  · rw [min_eq_right (by omega), max_eq_right (by omega)]

theorem difficultyMultiplier_medium : difficultyMultiplier "medium" = 1 := by
  simp [difficultyMultiplier]; norm_num

theorem difficultyMultiplier_hard : difficultyMultiplier "hard" = 3 / 2 := by
  simp [difficultyMultiplier]; norm_num

theorem calculateReviewInterval_25_1_38 :
    calculateReviewInterval 25 (some (double 1.38)) "medium" = some 35 := by
  rw [calculateReviewInterval_some, difficultyMultiplier_medium, one_jsMul, double_1_38,
    roundToDouble_1_38]
  have h25 : (((25 : ℤ) : ℚ)) = 25 := by norm_num
  rw [h25, jsMul_1_38_25, jsMul_one, roundToDouble_34_5]
  have hr : mathRound (69 / 2) = 35 := by
    unfold mathRound
    rw [Int.floor_eq_iff]; norm_num
  rw [hr]; rfl

theorem calculateReviewInterval_25_2_3 :
    calculateReviewInterval 25 (some (double 2.3)) "medium" = some 57 := by
  rw [calculateReviewInterval_some, difficultyMultiplier_medium, one_jsMul, double_2_3,
    roundToDouble_2_3]
  have h25 : (((25 : ℤ) : ℚ)) = 25 := by norm_num
  rw [h25, jsMul_2_3_25, jsMul_one, roundToDouble_57_5]
  have hr : mathRound (8092405580431359 / 140737488355328) = 57 := by
    unfold mathRound
    rw [Int.floor_eq_iff]; norm_num
  rw [hr]; rfl

/-- C6. For every review count, ease factor `e` and difficulty tier, `calculateReviewInterval`
returns the value of the reference definition: 1 at review count 0, 6 at review count 1,
otherwise `round (1 * e * reviewCount * m)` clamped to `[1, 365]` with `m` = 0.8, 1.0, 1.5 for
easy, medium, hard, the products being products of doubles taken from left to right. -/
theorem calculateReviewInterval_eq_ref (reviewCount : ℤ) (e : ℚ) (tier : DifficultyTier) :
    calculateReviewInterval reviewCount (some e) tier.name =
      some (computeIntervalRef reviewCount e tier) := by
  rw [calculateReviewInterval_some, difficultyMultiplier_name, max_min_eq_clampInt]
  unfold computeIntervalRef
  split_ifs <;> simp [clampInt]

/-- C6 at review count 25, difficulty medium: the reference definition and the code both give
35 days at ease factor 1.38, where the double product is 34.5, and 57 days at ease factor 2.3,
where it is 57.49999999999999. -/
theorem calculateReviewInterval_eq_ref_witness :
    computeIntervalRef 25 (double 1.38) DifficultyTier.medium = 35 ∧
      computeIntervalRef 25 (double 2.3) DifficultyTier.medium = 57 := by
  have h1 := calculateReviewInterval_eq_ref 25 (double 1.38) DifficultyTier.medium
  have h2 := calculateReviewInterval_eq_ref 25 (double 2.3) DifficultyTier.medium
  rw [show DifficultyTier.medium.name = "medium" from rfl] at h1 h2
  rw [calculateReviewInterval_25_1_38] at h1
  rw [calculateReviewInterval_25_2_3] at h2
  exact ⟨(Option.some.inj h1).symm, (Option.some.inj h2).symm⟩

/-- C7. For every review count, every ease factor that is a number and every difficulty
string, `calculateReviewInterval` returns a number, and it lies in `[1, 365]`. -/
theorem calculateReviewInterval_mem (reviewCount : ℤ) (e : ℚ) (difficulty : String) :
    ∃ n, calculateReviewInterval reviewCount (some e) difficulty = some n ∧
      1 ≤ n ∧ n ≤ 365 :=
  ⟨_, calculateReviewInterval_some reviewCount e difficulty, le_max_left _ _,
    max_le (by norm_num) (min_le_left _ _)⟩

/-! ## Creation defaults -/

/-- C8 (the code at the failing input). The record `addWord` stores has review count 0,
mastery level 0 and no forced-review time, but no ease factor either.  Grading it `good`
leaves the ease factor without a number, and grading the result `good` once more makes
`calculateNextReview` throw. -/
theorem addWord_easeFactor_missing (now : ℤ) (wordData : WordData) :
    (addWord now wordData).reviewCount = 0 ∧
    (addWord now wordData).masteryLevel = 0 ∧
    (addWord now wordData).forceReviewTime = none ∧
    (addWord now wordData).easeFactor = none ∧
    ∃ w1, calculateNextReview now (addWord now wordData) "good" = Except.ok w1 ∧
      w1.easeFactor = none ∧
      calculateNextReview now w1 "good" = Except.error JSError.rangeError := by
  refine ⟨rfl, rfl, rfl, rfl, ?_⟩
  have hg : gradeUpdate (addWord now wordData) "good" =
      { addWord now wordData with reviewCount := 1, masteryLevel := min 5 (jsAdd 0 0.5) } := by
    simp [gradeUpdate, addWord, mathMax]
  have hi : calculateReviewInterval (gradeUpdate (addWord now wordData) "good").reviewCount
      (gradeUpdate (addWord now wordData) "good").easeFactor (addWord now wordData).difficulty
        = some 6 := by
    rw [hg]; rfl
  refine ⟨_, calculateNextReview_ok now _ "good" 6 hi, ?_, ?_⟩
  · rw [hg]; rfl
  · rw [hg]
    simp [calculateNextReview, gradeUpdate, addWord, mathMax, calculateReviewInterval]

/-! ## Forced-review override -/

theorem orElseInt_of_ne_zero (v d : ℤ) (hv : v ≠ 0) : orElseInt (some v) d = v := by
  simp [orElseInt, hv]

theorem orElseInt_zero_default (x : ℤ) : orElseInt (some x) 0 = x := by
  by_cases hx : x = 0 <;> simp [orElseInt, hx]

theorem applyLeitnerSystem_false_lt (now : ℤ) (w : Word)
    (h : orElseInt w.hardBoxAttempts 0 + 1 < 3) :
    applyLeitnerSystem now w false =
      Except.ok { w with
        leitnerBox := some (max 1 (orElseInt w.leitnerBox 5 - 1))
        hardBoxAttempts := some (orElseInt w.hardBoxAttempts 0 + 1)
        forceReviewTime := some (now + 1 * msPerDay) } := by
  have h' : ¬ orElseInt w.hardBoxAttempts 0 + 1 ≥ 3 := by omega
  simp [applyLeitnerSystem, maxHardBoxAttempts, leitnerBoxes, hardBoxReviewInterval, h']

theorem applyLeitnerSystem_false_ge (now : ℤ) (w : Word)
    (h : 3 ≤ orElseInt w.hardBoxAttempts 0 + 1) :
    applyLeitnerSystem now w false =
      Except.ok { w with
        leitnerBox := some (max 1 (orElseInt w.leitnerBox 5 - 1))
        hardBoxAttempts := some 0
        forceReviewTime := some (now + 1 * msPerDay)
        reviewCount := 0
        masteryLevel := 0 } := by
  have h' : orElseInt w.hardBoxAttempts 0 + 1 ≥ 3 := h
  simp [applyLeitnerSystem, maxHardBoxAttempts, leitnerBoxes, hardBoxReviewInterval, h']

theorem applyLeitnerSystem_true_gt (now : ℤ) (w : Word) (i : ℤ)
    (hbox : 1 < min 5 (orElseInt w.leitnerBox 1 + 1))
    (hi : calculateReviewInterval w.reviewCount (some (orElseNum w.easeFactor 2.5))
      w.difficulty = some i) :
    applyLeitnerSystem now w true =
      Except.ok { w with
        leitnerBox := some (min 5 (orElseInt w.leitnerBox 1 + 1))
        hardBoxAttempts := some 0
        nextReview := now + i * msPerDay
        forceReviewTime := none } := by
  have hbox' : min 5 (orElseInt w.leitnerBox 1 + 1) > 1 := hbox
  simp only [applyLeitnerSystem, leitnerBoxes, easeFactor, Bool.not_true, Bool.false_eq_true,
    if_false, hbox', if_true, hi]

/-- C9. For a word whose Leitner box is `b >= 1` and whose `hardBoxAttempts` is `h`,
`applyLeitnerSystem word false` at time `now` returns a word with box `max 1 (b - 1)` and
forced-review time `now` plus one day; when `h + 1 < 3` its `hardBoxAttempts` is `h + 1` and
review count and mastery level are the input's, and when `h + 1 >= 3` its review count,
mastery level and `hardBoxAttempts` are all 0. -/
theorem applyLeitnerSystem_incorrect (now : ℤ) (w : Word) (b h : ℤ)
    (hb : w.leitnerBox = some b) (hb1 : 1 ≤ b) (hh : w.hardBoxAttempts = some h) :
    ∃ w', applyLeitnerSystem now w false = Except.ok w' ∧
      w'.leitnerBox = some (max 1 (b - 1)) ∧
      w'.forceReviewTime = some (now + 1 * msPerDay) ∧
      (h + 1 < 3 → w'.hardBoxAttempts = some (h + 1) ∧ w'.reviewCount = w.reviewCount ∧
        w'.masteryLevel = w.masteryLevel) ∧
      (3 ≤ h + 1 → w'.reviewCount = 0 ∧ w'.masteryLevel = 0 ∧
        w'.hardBoxAttempts = some 0) := by
  have hbox : orElseInt w.leitnerBox 5 = b := by
    rw [hb]; exact orElseInt_of_ne_zero b 5 (by omega)
  have hatt : orElseInt w.hardBoxAttempts 0 = h := by
    rw [hh]; exact orElseInt_zero_default h
  by_cases hlt : h + 1 < 3
  · refine ⟨_, applyLeitnerSystem_false_lt now w (by omega), ?_, rfl,
      fun _ => ⟨?_, rfl, rfl⟩, fun h3 => absurd h3 (by omega)⟩
    · simp only [hbox]
    · simp only [hatt]
  · refine ⟨_, applyLeitnerSystem_false_ge now w (by omega), ?_, rfl,
      fun h3 => absurd h3 hlt, fun _ => ⟨rfl, rfl, rfl⟩⟩
    simp only [hbox]

/-- C9 at a word in box 3 with two earlier failures: the third failure resets it. -/
theorem applyLeitnerSystem_incorrect_witness :
    ∃ w', applyLeitnerSystem 1000 boxedWord false = Except.ok w' ∧
      w'.leitnerBox = some (max 1 (3 - 1)) ∧
      w'.forceReviewTime = some (1000 + 1 * msPerDay) ∧
      ((2 : ℤ) + 1 < 3 → w'.hardBoxAttempts = some (2 + 1) ∧
        w'.reviewCount = boxedWord.reviewCount ∧ w'.masteryLevel = boxedWord.masteryLevel) ∧
      ((3 : ℤ) ≤ 2 + 1 → w'.reviewCount = 0 ∧ w'.masteryLevel = 0 ∧
        w'.hardBoxAttempts = some 0) :=
  applyLeitnerSystem_incorrect 1000 boxedWord 3 2 rfl (by decide) rfl

/-- C10. For a word whose Leitner box is `b` in `1..5` and whose ease factor is a number
`e` other than 0, `applyLeitnerSystem word true` at time `now` returns a word with box
`min 5 (b + 1)`, which is `> 1`, with `hardBoxAttempts = 0`, no forced-review time, and
`nextReview` set `calculateReviewInterval reviewCount e difficulty` days after `now`. -/
theorem applyLeitnerSystem_correct (now : ℤ) (w : Word) (b : ℤ) (e : ℚ)
    (hb : w.leitnerBox = some b) (hb1 : 1 ≤ b) (hb5 : b ≤ 5)
    (he : w.easeFactor = some e) (he0 : e ≠ 0) :
    ∃ w' i, applyLeitnerSystem now w true = Except.ok w' ∧
      w'.leitnerBox = some (min 5 (b + 1)) ∧
      w'.hardBoxAttempts = some 0 ∧
      1 < min 5 (b + 1) ∧
      calculateReviewInterval w.reviewCount (some e) w.difficulty = some i ∧
      w'.nextReview = now + i * msPerDay ∧
      w'.forceReviewTime = none := by
  have hbox : orElseInt w.leitnerBox 1 = b := by
    rw [hb]; exact orElseInt_of_ne_zero b 1 (by omega)
  have hease : orElseNum w.easeFactor 2.5 = e := by
    rw [he]; simp [orElseNum, he0]
  have hgt : 1 < min 5 (b + 1) := lt_min (by norm_num) (by omega)
  obtain ⟨i, hi⟩ : ∃ i, calculateReviewInterval w.reviewCount (some e) w.difficulty = some i :=
    ⟨_, calculateReviewInterval_some _ _ _⟩
  refine ⟨_, i, applyLeitnerSystem_true_gt now w i (by rw [hbox]; exact hgt)
    (by rw [hease]; exact hi), ?_, rfl, hgt, hi, rfl, rfl⟩
  simp only [hbox]

/-- C10 at a word in box 3 with ease factor 2.5. -/
theorem applyLeitnerSystem_correct_witness :
    ∃ w' i, applyLeitnerSystem 1000 boxedWord true = Except.ok w' ∧
      w'.leitnerBox = some (min 5 (3 + 1)) ∧
      w'.hardBoxAttempts = some 0 ∧
      1 < min 5 ((3 : ℤ) + 1) ∧
      calculateReviewInterval boxedWord.reviewCount (some 2.5) boxedWord.difficulty = some i ∧
      w'.nextReview = 1000 + i * msPerDay ∧
      w'.forceReviewTime = none :=
  applyLeitnerSystem_correct 1000 boxedWord 3 2.5 rfl (by decide) (by decide) rfl (by norm_num)

theorem applyLeitnerSystem_true_ok (now : ℤ) (w : Word) :
    ∃ w', applyLeitnerSystem now w true = Except.ok w' ∧
      w'.leitnerBox = some (min 5 (orElseInt w.leitnerBox 1 + 1)) := by
  by_cases hbox : 1 < min 5 (orElseInt w.leitnerBox 1 + 1)
  · obtain ⟨i, hi⟩ : ∃ i, calculateReviewInterval w.reviewCount
        (some (orElseNum w.easeFactor 2.5)) w.difficulty = some i :=
      ⟨_, calculateReviewInterval_some _ _ _⟩
    exact ⟨_, applyLeitnerSystem_true_gt now w i hbox hi, rfl⟩
  · have hbox' : ¬ min 5 (orElseInt w.leitnerBox 1 + 1) > 1 := hbox
    refine ⟨{ w with leitnerBox := some (min 5 (orElseInt w.leitnerBox 1 + 1))
                     hardBoxAttempts := some 0 }, ?_, rfl⟩
    simp only [applyLeitnerSystem, leitnerBoxes, Bool.not_true, Bool.false_eq_true, if_false,
      hbox']

theorem applyLeitnerSystem_false_ok (now : ℤ) (w : Word) :
    ∃ w', applyLeitnerSystem now w false = Except.ok w' ∧
      w'.leitnerBox = some (max 1 (orElseInt w.leitnerBox 5 - 1)) := by
  by_cases h : orElseInt w.hardBoxAttempts 0 + 1 < 3
  · exact ⟨_, applyLeitnerSystem_false_lt now w h, rfl⟩
  · exact ⟨_, applyLeitnerSystem_false_ge now w (by omega), rfl⟩

/-- C11 (the code at the failing input). On a word without `leitnerBox`,
`applyLeitnerSystem word false` returns box 4, not `max 1 (1 - 1) = 1`: the failure branch
reads the absent box as `leitnerBoxes = 5`.  `applyLeitnerSystem word true` returns box 2. -/
theorem applyLeitnerSystem_unset_box (now : ℤ) (w : Word) :
    (∃ w', applyLeitnerSystem now { w with leitnerBox := none } false = Except.ok w' ∧
      w'.leitnerBox = some 4) ∧
    (∃ w', applyLeitnerSystem now { w with leitnerBox := none } true = Except.ok w' ∧
      w'.leitnerBox = some 2) := by
  constructor
  · obtain ⟨w', h, hb⟩ := applyLeitnerSystem_false_ok now { w with leitnerBox := none }
    exact ⟨w', h, by rw [hb]; simp [orElseInt]⟩
  · obtain ⟨w', h, hb⟩ := applyLeitnerSystem_true_ok now { w with leitnerBox := none }
    exact ⟨w', h, by rw [hb]; simp [orElseInt]⟩

/-- C12 (as stated, refuted). A word stored with Leitner box 9 and answered wrongly comes
back with box 8, which is outside `1..5`. -/
theorem applyLeitnerSystem_box_counterexample :
    ∃ w', applyLeitnerSystem 1000 overfullBoxWord false = Except.ok w' ∧
      w'.leitnerBox = some 8 ∧ ¬ ((1 : ℤ) ≤ 8 ∧ (8 : ℤ) ≤ 5) := by
  obtain ⟨w', h, hb⟩ := applyLeitnerSystem_false_ok 1000 overfullBoxWord
  exact ⟨w', h, by rw [hb]; rfl, by decide⟩

/-- C12 (amended). For a word whose Leitner box is unset or lies in `1..5`, and for either
outcome, `applyLeitnerSystem` returns a word whose Leitner box lies in `1..5`. -/
theorem applyLeitnerSystem_box_mem (now : ℤ) (w : Word) (wasCorrect : Bool)
    (hbox : ∀ b, w.leitnerBox = some b → 1 ≤ b ∧ b ≤ 5) :
    ∃ w' b', applyLeitnerSystem now w wasCorrect = Except.ok w' ∧
      w'.leitnerBox = some b' ∧ 1 ≤ b' ∧ b' ≤ 5 := by
  have h5 : 1 ≤ orElseInt w.leitnerBox 5 ∧ orElseInt w.leitnerBox 5 ≤ 5 := by
    cases hw : w.leitnerBox with
    | none => simp [orElseInt]
    | some b =>
      have := hbox b hw
      rw [orElseInt_of_ne_zero b 5 (by omega)]; exact this
  have h1 : 1 ≤ orElseInt w.leitnerBox 1 ∧ orElseInt w.leitnerBox 1 ≤ 5 := by
    cases hw : w.leitnerBox with
    | none => simp [orElseInt]
    | some b =>
      have := hbox b hw
      rw [orElseInt_of_ne_zero b 1 (by omega)]; exact this
  cases wasCorrect with
  | false =>
    obtain ⟨w', h, hb⟩ := applyLeitnerSystem_false_ok now w
    exact ⟨w', _, h, hb, le_max_left _ _, max_le (by norm_num) (by omega)⟩
  | true =>
    obtain ⟨w', h, hb⟩ := applyLeitnerSystem_true_ok now w
    exact ⟨w', _, h, hb, le_min (by norm_num) (by omega), min_le_left _ _⟩

/-- The amended C12 at a word without a Leitner box, answered wrongly. -/
theorem applyLeitnerSystem_box_mem_witness :
    ∃ w' b', applyLeitnerSystem 1000 scenarioA false = Except.ok w' ∧
      w'.leitnerBox = some b' ∧ 1 ≤ b' ∧ b' ≤ 5 :=
  applyLeitnerSystem_box_mem 1000 scenarioA false (fun b hb => by cases hb)

/-! ## Review queue -/

theorem compareForce_total : IsTotal Word (fun a b => compareForce a b ≤ 0) :=
  ⟨fun a b => by
    unfold compareForce
    rcases le_total (forceDate a) (forceDate b) with h | h
    · exact Or.inl (by omega)
    · exact Or.inr (by omega)⟩

theorem compareForce_trans : IsTrans Word (fun a b => compareForce a b ≤ 0) :=
  ⟨fun a b c hab hbc => by
    unfold compareForce at *
    omega⟩

theorem isDue_iff (now : ℤ) (w : Word) :
    isDue now w = true ↔
      (w.nextReview ≤ now ∨ ∃ t, w.forceReviewTime = some t ∧ t ≤ now) := by
  unfold isDue
  cases h : w.forceReviewTime <;> simp

theorem getWordsForReview_sorted (now : ℤ) (words : List Word) :
    (getWordsForReview now words).Pairwise (fun a b => forceDate a ≤ forceDate b) := by
  haveI := compareForce_total
  haveI := compareForce_trans
  have h := List.sorted_insertionSort (fun a b : Word => compareForce a b ≤ 0)
    (words.filter (isDue now))
  refine List.Pairwise.imp ?_ h
  intro a b hab
  unfold compareForce at hab
  omega

theorem getWordsForReview_perm (now : ℤ) (words : List Word) :
    (getWordsForReview now words).Perm (words.filter (isDue now)) :=
  List.perm_insertionSort _ _

/-- C13. For every list of words and every time `now`, the result of `getWordsForReview` is a
permutation of the sub-list of the input words that pass the due test, and a word passes the
test iff `nextReview <= now` or it has a `forceReviewTime` that is `<= now`: the result holds
exactly the due words, each as often as the input does. -/
theorem getWordsForReview_perm_due (now : ℤ) (words : List Word) :
    (getWordsForReview now words).Perm (words.filter (isDue now)) ∧
      ∀ w, isDue now w = true ↔
        (w.nextReview ≤ now ∨ ∃ t, w.forceReviewTime = some t ∧ t ≤ now) :=
  ⟨getWordsForReview_perm now words, isDue_iff now⟩

/-- C14 (the code at the failing input). At 2099-12-30T07:46:40Z a due word with a forced
review on 2099-12-31T07:46:40Z and a due word without one come back with the unforced word
first, although the comment on the sort (line 196) says that forced-review words come first:
the comparator gives a word without `forceReviewTime` the date 2099-12-31T00:00Z instead of a
date later than every other. -/
theorem getWordsForReview_unforced_first :
    lateForcedWord.forceReviewTime = some 4102386400000 ∧
    plainDueWord.forceReviewTime = none ∧
    getWordsForReview 4102300000000 [lateForcedWord, plainDueWord] =
      [plainDueWord, lateForcedWord] := by
  refine ⟨rfl, rfl, ?_⟩
  rfl

theorem getWordsForReview_pair (now : ℤ) (a b : Word) (T : ℤ)
    (ha : a.forceReviewTime = some T) (hT : T < farFuture) (hda : isDue now a = true)
    (hb : b.forceReviewTime = none) (hdb : b.nextReview ≤ now) :
    getWordsForReview now [a, b] = [a, b] ∧ getWordsForReview now [b, a] = [a, b] := by
  have hdb' : isDue now b = true := (isDue_iff now b).2 (Or.inl hdb)
  have hab : compareForce a b ≤ 0 := by
    simp only [compareForce, forceDate, ha, hb]; omega
  have hba : ¬ compareForce b a ≤ 0 := by
    simp only [compareForce, forceDate, ha, hb]; omega
  constructor
  · simp [getWordsForReview, List.filter, hda, hdb', List.insertionSort, List.orderedInsert, hab]
  · simp [getWordsForReview, List.filter, hda, hdb', List.insertionSort, List.orderedInsert, hba]

/-- The order the comparator does give: for every list of words and every time `now`, the
result of `getWordsForReview` is in non-decreasing order of `forceReviewTime`, a missing
`forceReviewTime` counting as 2099-12-31T00:00Z.  So the forced-review words come first as long
as their `forceReviewTime` is earlier than that date, and the words that have one appear in
non-decreasing `forceReviewTime` order; for a due word `a` with `forceReviewTime = T` earlier
than that date and a word `b` with none and `nextReview <= now`, the result is `[a, b]` for
either input order. -/
theorem getWordsForReview_order (now : ℤ) (words : List Word) :
    (getWordsForReview now words).Pairwise (fun x y => forceDate x ≤ forceDate y) ∧
    (getWordsForReview now words).Pairwise (fun x y =>
      ∀ t, y.forceReviewTime = some t → t < farFuture → x.forceReviewTime ≠ none) ∧
    (getWordsForReview now words).Pairwise (fun x y =>
      ∀ s t, x.forceReviewTime = some s → y.forceReviewTime = some t → s ≤ t) ∧
    (∀ (a b : Word) (T : ℤ), a.forceReviewTime = some T → T < farFuture →
      isDue now a = true → b.forceReviewTime = none → b.nextReview ≤ now →
      getWordsForReview now [a, b] = [a, b] ∧ getWordsForReview now [b, a] = [a, b]) := by
  have h := getWordsForReview_sorted now words
  refine ⟨h, h.imp ?_, h.imp ?_, fun a b T => getWordsForReview_pair now a b T⟩
  · intro x y hxy t hy ht hx
    simp only [forceDate, hx, hy] at hxy
    omega
  · intro x y hxy s t hx hy
    simpa only [forceDate, hx, hy] using hxy

/-- Scenario C: item A with `forceReviewTime = 500`, item B with none and `nextReview <= now`;
the result is `[A, B]` whichever comes first in the input. -/
theorem getWordsForReview_scenarioC :
    getWordsForReview 1000 [forcedDueWord, { plainDueWord with nextReview := 900 }] =
        [forcedDueWord, { plainDueWord with nextReview := 900 }] ∧
      getWordsForReview 1000 [{ plainDueWord with nextReview := 900 }, forcedDueWord] =
        [forcedDueWord, { plainDueWord with nextReview := 900 }] :=
  (getWordsForReview_order 1000 []).2.2.2 forcedDueWord { plainDueWord with nextReview := 900 }
    500 rfl (by decide) (by decide) rfl (by decide)

/-- C15. For every list of words and every time `now`, applying `getWordsForReview` to its
own result at the same time returns that result unchanged; as the result is a function of the
list and of `now` alone, two calls on the same input at the same time agree. -/
theorem getWordsForReview_idempotent (now : ℤ) (words : List Word) :
    getWordsForReview now (getWordsForReview now words) = getWordsForReview now words := by
  haveI := compareForce_total
  haveI := compareForce_trans
  have hdue : ∀ w ∈ getWordsForReview now words, isDue now w = true := by
    intro w hw
    have hw' : w ∈ words.filter (isDue now) := (List.mem_insertionSort _).1 hw
    exact (List.mem_filter.1 hw').2
  have hfil : (getWordsForReview now words).filter (isDue now) = getWordsForReview now words :=
    List.filter_eq_self.2 hdue
  have hsorted : List.Sorted (fun a b : Word => compareForce a b ≤ 0)
      (getWordsForReview now words) :=
    List.sorted_insertionSort _ _
  show List.insertionSort _ ((getWordsForReview now words).filter (isDue now)) = _
  rw [hfil]
  exact hsorted.insertionSort_eq

/-! ## Priority score and recommendations -/

theorem orElseNum_zero_default (x : ℚ) : orElseNum (some x) 0 = x := by
  by_cases hx : x = 0 <;> simp [orElseNum, hx]

theorem difficultyScore_name (t : DifficultyTier) :
    orElseNum (difficultyScore t.name) 2 = tierWeight t := by
  cases t <;> simp [difficultyScore, DifficultyTier.name, tierWeight, orElseNum]

theorem arraySliceFromZero_natCast {α : Type} (l : List α) (k : ℕ) :
    arraySliceFromZero l (k : ℤ) = l.take k := by
  simp [arraySliceFromZero]

theorem arraySliceFromZero_sublist {α : Type} (l : List α) (n : ℤ) :
    (arraySliceFromZero l n).Sublist l := by
  unfold arraySliceFromZero
  split_ifs <;> exact List.take_sublist _ _

theorem mem_getSmartReviewRecommendations (now : ℤ) (words : List Word) (maxCount : Option ℤ)
    (s : ScoredWord) (hs : s ∈ getSmartReviewRecommendations now words maxCount) :
    s.toWord ∈ getWordsForReview now words ∧ s.priorityScore = priorityScore now s.toWord := by
  have h1 := (arraySliceFromZero_sublist _ _).subset hs
  have h2 := (List.mem_insertionSort _).1 h1
  obtain ⟨w, hw, rfl⟩ := List.mem_map.1 h2
  exact ⟨hw, rfl⟩

/-- C16. For a word whose difficulty is one of the three tiers, the score computed by
`getSmartReviewRecommendations` is
`(100 if forceReviewTime is set, else 0) + (5 - masteryLevel) * 10 + (10 - reviewCount) * 5 +
weight + max 0 (20 - d)` with weight 1, 2, 3 for easy, medium, hard and `d` the number of
days from `now` to `nextReview` rounded up; and every word the method returns carries the
score of its own fields as `priorityScore`. -/
theorem priorityScore_eq_ref (now : ℤ) (w : Word) (tier : DifficultyTier)
    (hd : w.difficulty = tier.name) :
    priorityScore now w =
        priorityScoreRef w.forceReviewTime.isSome w.masteryLevel w.reviewCount tier
          (daysUntil w.nextReview now) ∧
      ∀ (words : List Word) (maxCount : Option ℤ) (s : ScoredWord),
        s ∈ getSmartReviewRecommendations now words maxCount → s.toWord = w →
        s.priorityScore =
          priorityScoreRef w.forceReviewTime.isSome w.masteryLevel w.reviewCount tier
            (daysUntil w.nextReview now) := by
  have key : priorityScore now w =
      priorityScoreRef w.forceReviewTime.isSome w.masteryLevel w.reviewCount tier
        (daysUntil w.nextReview now) := by
    have hms : (msPerDay : ℚ) = 1000 * 60 * 60 * 24 := by norm_num [msPerDay]
    simp only [priorityScore, priorityScoreRef, daysUntil, orElseNum_zero_default,
      orElseInt_zero_default, hd, difficultyScore_name, hms]
    cases w.forceReviewTime <;> simp
  refine ⟨key, fun words maxCount s hs hw => ?_⟩
  rw [(mem_getSmartReviewRecommendations now words maxCount s hs).2, hw, key]

/-- C16 at a forced word of difficulty hard, mastery 2, review count 2, three days overdue:
the score is `100 + 30 + 40 + 3 + 23 = 196`. -/
theorem priorityScore_eq_ref_witness :
    priorityScore (4 * msPerDay) overdueWord = 196 := by
  have h := (priorityScore_eq_ref (4 * msPerDay) overdueWord DifficultyTier.hard rfl).1
  rw [h]
  have hd : daysUntil overdueWord.nextReview (4 * msPerDay) = -3 := by
    simp only [daysUntil, overdueWord, msPerDay]
    norm_num
    rw [show (-3 : ℚ) = ((-3 : ℤ) : ℚ) by norm_num, Int.ceil_intCast]
  rw [hd]
  norm_num [priorityScoreRef, overdueWord, scenarioB, tierWeight]

theorem scoreOrder_total :
    IsTotal ScoredWord (fun a b => b.priorityScore - a.priorityScore ≤ 0) :=
  ⟨fun a b => by
    rcases le_total a.priorityScore b.priorityScore with h | h
    · exact Or.inr (by linarith)
    · exact Or.inl (by linarith)⟩

theorem scoreOrder_trans :
    IsTrans ScoredWord (fun a b => b.priorityScore - a.priorityScore ≤ 0) :=
  ⟨fun a b c hab hbc => by
    have h1 : b.priorityScore - a.priorityScore ≤ 0 := hab
    have h2 : c.priorityScore - b.priorityScore ≤ 0 := hbc
    show c.priorityScore - a.priorityScore ≤ 0
    linarith⟩

theorem getSmartReviewRecommendations_natCast (now : ℤ) (words : List Word) (k : ℕ) :
    getSmartReviewRecommendations now words (some (k : ℤ)) =
      (((getWordsForReview now words).map (scored now)).insertionSort
        (fun a b => b.priorityScore - a.priorityScore ≤ 0)).take k := by
  unfold getSmartReviewRecommendations
  simp only [Option.getD_some, arraySliceFromZero_natCast]
  rfl

theorem filter_insertionSort_score (l : List ScoredWord) (v : ℚ) :
    (l.insertionSort (fun a b => b.priorityScore - a.priorityScore ≤ 0)).filter
        (fun s => decide (s.priorityScore = v)) =
      l.filter (fun s => decide (s.priorityScore = v)) := by
  have hsub : (l.filter (fun s => decide (s.priorityScore = v))).Sublist
      (l.insertionSort (fun a b => b.priorityScore - a.priorityScore ≤ 0)) := by
    apply List.sublist_insertionSort
    · rw [List.pairwise_iff_forall_sublist]
      intro a b hab
      have ha : a ∈ l.filter (fun s => decide (s.priorityScore = v)) :=
        hab.subset (by simp)
      have hb : b ∈ l.filter (fun s => decide (s.priorityScore = v)) :=
        hab.subset (by simp)
      have ha' : a.priorityScore = v := by simpa using (List.mem_filter.1 ha).2
      have hb' : b.priorityScore = v := by simpa using (List.mem_filter.1 hb).2
      show b.priorityScore - a.priorityScore ≤ 0
      rw [ha', hb']; simp
    · exact List.filter_sublist _
  have hsub' := hsub.filter (fun s => decide (s.priorityScore = v))
  rw [List.filter_filter] at hsub'
  simp only [Bool.and_self] at hsub'
  have hlen : (l.filter (fun s => decide (s.priorityScore = v))).length =
      ((l.insertionSort (fun a b => b.priorityScore - a.priorityScore ≤ 0)).filter
        (fun s => decide (s.priorityScore = v))).length :=
    ((List.perm_insertionSort _ l).filter _).length_eq.symm
  exact (hsub'.eq_of_length hlen).symm

/-- C17. For every list of words, time `now` and `maxCount = k >= 0`,
`getSmartReviewRecommendations` returns exactly `min k (number of due words)` items; each is a
due word of the input carrying its priority score; the items are in non-increasing score
order; together with the scored due words left out they make up all scored due words, and no
word left out has a higher score than a returned one; and among the items of any one score the
order is the one `getWordsForReview` gave them. -/
theorem getSmartReviewRecommendations_top (now : ℤ) (words : List Word) (k : ℕ) :
    (getSmartReviewRecommendations now words (some (k : ℤ))).length =
        min k (words.filter (isDue now)).length ∧
    (∀ s ∈ getSmartReviewRecommendations now words (some (k : ℤ)),
        s.toWord ∈ words ∧ isDue now s.toWord = true ∧
        s.priorityScore = priorityScore now s.toWord) ∧
    (getSmartReviewRecommendations now words (some (k : ℤ))).Pairwise
        (fun a b => b.priorityScore ≤ a.priorityScore) ∧
    (∃ rest : List ScoredWord,
        (getSmartReviewRecommendations now words (some (k : ℤ)) ++ rest).Perm
          ((getWordsForReview now words).map (scored now)) ∧
        ∀ s ∈ getSmartReviewRecommendations now words (some (k : ℤ)), ∀ r ∈ rest,
          r.priorityScore ≤ s.priorityScore) ∧
    (∀ v : ℚ,
        (getSmartReviewRecommendations now words (some (k : ℤ))).filter
            (fun s => decide (s.priorityScore = v)) <+:
          ((getWordsForReview now words).map (scored now)).filter
            (fun s => decide (s.priorityScore = v))) := by
  haveI := scoreOrder_total
  haveI := scoreOrder_trans
  have hsorted : List.Sorted (fun a b : ScoredWord => b.priorityScore - a.priorityScore ≤ 0)
      (((getWordsForReview now words).map (scored now)).insertionSort
        (fun a b => b.priorityScore - a.priorityScore ≤ 0)) :=
    List.sorted_insertionSort _ _
  refine ⟨?_, ?_, ?_, ?_, ?_⟩
  · rw [getSmartReviewRecommendations_natCast, List.length_take, List.length_insertionSort,
      List.length_map, (getWordsForReview_perm now words).length_eq]
  · intro s hs
    obtain ⟨h1, h2⟩ := mem_getSmartReviewRecommendations now words _ s hs
    have h3 : s.toWord ∈ words.filter (isDue now) :=
      (getWordsForReview_perm now words).subset h1
    exact ⟨(List.mem_filter.1 h3).1, (List.mem_filter.1 h3).2, h2⟩
  · rw [getSmartReviewRecommendations_natCast]
    have hp : List.Pairwise (fun a b : ScoredWord => b.priorityScore - a.priorityScore ≤ 0)
        ((((getWordsForReview now words).map (scored now)).insertionSort
          (fun a b => b.priorityScore - a.priorityScore ≤ 0)).take k) :=
      List.Pairwise.sublist (List.take_sublist _ _) hsorted
    exact hp.imp (fun h => by linarith)
  · refine ⟨(((getWordsForReview now words).map (scored now)).insertionSort
        (fun a b => b.priorityScore - a.priorityScore ≤ 0)).drop k, ?_, ?_⟩
    · rw [getSmartReviewRecommendations_natCast, List.take_append_drop]
      exact List.perm_insertionSort _ _
    · intro s hs r hr
      rw [getSmartReviewRecommendations_natCast] at hs
      have h : r.priorityScore - s.priorityScore ≤ 0 :=
        hsorted.rel_of_mem_take_of_mem_drop hs hr
      linarith
  · intro v
    rw [getSmartReviewRecommendations_natCast,
      ← filter_insertionSort_score ((getWordsForReview now words).map (scored now)) v]
    have hpre : (((getWordsForReview now words).map (scored now)).insertionSort
        (fun a b => b.priorityScore - a.priorityScore ≤ 0)).take k <+:
        ((getWordsForReview now words).map (scored now)).insertionSort
          (fun a b => b.priorityScore - a.priorityScore ≤ 0) := List.take_prefix _ _
    exact hpre.filter _

/-! ## User statistics -/

theorem updateUserStats_eq (now : ℤ) (s : UserStats) (wasCorrect : Bool) :
    updateUserStats now s wasCorrect =
      { totalReviews := s.totalReviews + 1
        correctReviews := if wasCorrect then s.correctReviews + 1 else s.correctReviews
        consecutiveCorrect := if wasCorrect then s.consecutiveCorrect + 1 else 0
        consecutiveIncorrect := if wasCorrect then 0 else s.consecutiveIncorrect + 1
        lastReviewDate := some (toDateString now)
        learningStreak := s.learningStreak } := by
  cases wasCorrect <;> simp [updateUserStats, updateLearningStreak]

/-- C18 (the code at the failing inputs). At a time on day 10, `updateUserStats` leaves the
streak of a tracker last used on day 9 at 3 (the streak law asks for 4), leaves it at 3 when
the tracker was last used on day 5 (the law asks for 1), and leaves the streak of the initial
tracker at 0 (the law asks for 1); `updateLearningStreak` on its own would give 4, 1 and 1. -/
theorem updateUserStats_streak_unchanged :
    toDateString (10 * msPerDay + 5) = 10 ∧
    (updateUserStats (10 * msPerDay + 5) streakTracker true).learningStreak = 3 ∧
    (updateUserStats (10 * msPerDay + 5)
      { streakTracker with lastReviewDate := some 5 } true).learningStreak = 3 ∧
    (updateUserStats (10 * msPerDay + 5) initialUserStats false).learningStreak = 0 ∧
    (updateLearningStreak (10 * msPerDay + 5) streakTracker).learningStreak = 4 ∧
    (updateLearningStreak (10 * msPerDay + 5)
      { streakTracker with lastReviewDate := some 5 }).learningStreak = 1 ∧
    (updateLearningStreak (10 * msPerDay + 5) initialUserStats).learningStreak = 1 := by
  refine ⟨by decide, ?_, ?_, ?_, by decide, by decide, by decide⟩ <;>
    (rw [updateUserStats_eq]; rfl)

/-- C19. For every tracker state, `updateUserStats true` adds 1 to `totalReviews`,
`correctReviews` and `consecutiveCorrect` and sets `consecutiveIncorrect` to 0;
`updateUserStats false` adds 1 to `totalReviews` and `consecutiveIncorrect`, sets
`consecutiveCorrect` to 0 and leaves `correctReviews` as it was. -/
theorem updateUserStats_counters (now : ℤ) (s : UserStats) :
    ((updateUserStats now s true).totalReviews = s.totalReviews + 1 ∧
      (updateUserStats now s true).correctReviews = s.correctReviews + 1 ∧
      (updateUserStats now s true).consecutiveCorrect = s.consecutiveCorrect + 1 ∧
      (updateUserStats now s true).consecutiveIncorrect = 0) ∧
    ((updateUserStats now s false).totalReviews = s.totalReviews + 1 ∧
      (updateUserStats now s false).consecutiveIncorrect = s.consecutiveIncorrect + 1 ∧
      (updateUserStats now s false).consecutiveCorrect = 0 ∧
      (updateUserStats now s false).correctReviews = s.correctReviews) := by
  simp [updateUserStats_eq]

/-- C20. For every tracker state, `getEfficiencyStats` leaves the tracker as it was, reports
the five counters and the last review date as stored, and reports accuracy 0 when
`totalReviews = 0` and otherwise `correctReviews / totalReviews * 100`, the quotient and the
product being those of doubles, rounded to the nearest integer. -/
theorem getEfficiencyStats_read (s : UserStats) :
    (getEfficiencyStats s).2 = s ∧
    (getEfficiencyStats s).1.totalReviews = s.totalReviews ∧
    (getEfficiencyStats s).1.correctReviews = s.correctReviews ∧
    (getEfficiencyStats s).1.consecutiveCorrect = s.consecutiveCorrect ∧
    (getEfficiencyStats s).1.consecutiveIncorrect = s.consecutiveIncorrect ∧
    (getEfficiencyStats s).1.learningStreak = s.learningStreak ∧
    (getEfficiencyStats s).1.lastReviewDate = s.lastReviewDate ∧
    (getEfficiencyStats s).1.accuracy =
      if s.totalReviews = 0 then 0
      else mathRound (jsMul (jsDiv (s.correctReviews : ℚ) (s.totalReviews : ℚ)) 100) := by
  refine ⟨rfl, rfl, rfl, rfl, rfl, rfl, rfl, ?_⟩
  by_cases h : s.totalReviews = 0
  · simp [getEfficiencyStats, h, mathRound]
    norm_num
  · have hpos : s.totalReviews > 0 := Nat.pos_of_ne_zero h
    simp [getEfficiencyStats, h, hpos]

theorem mathRound_percent_23_40 : mathRound (jsMul (jsDiv 23 40) 100) = 57 := by
  rw [jsDiv_23_40, jsMul_23_40_100]
  unfold mathRound
  rw [Int.floor_eq_iff]; norm_num

/-- C20 at 23 correct answers out of 40: the double product `23 / 40 * 100` is
57.49999999999999 and the reported accuracy is 57. -/
theorem getEfficiencyStats_read_witness :
    (getEfficiencyStats fortyReviews).2 = fortyReviews ∧
      (getEfficiencyStats fortyReviews).1.accuracy = 57 := by
  obtain ⟨h1, -, -, -, -, -, -, h8⟩ := getEfficiencyStats_read fortyReviews
  refine ⟨h1, ?_⟩
  rw [h8]
  have ht : fortyReviews.totalReviews = 40 := rfl
  have hc : fortyReviews.correctReviews = 23 := rfl
  rw [ht, hc]
  norm_num [mathRound_percent_23_40]

/-! ## Progress prediction -/

theorem learningRateRef_nonneg (l s : ℕ) : 0 ≤ learningRateRef l s := by
  unfold learningRateRef jsDiv
  refine le_min (by norm_num) (roundToDouble_nonneg ?_)
  exact div_nonneg (Nat.cast_nonneg l) (Nat.cast_nonneg _)

theorem predictLearningProgress_estimate (s : UserStats) (words : List Word) :
    (predictLearningProgress s words).estimatedDaysToMaster =
      if learningRateRef (predictLearningProgress s words).learnedWords s.learningStreak > 0 then
        ExtNum.finite ((⌈jsDiv (((predictLearningProgress s words).totalWords : ℚ) -
          ((predictLearningProgress s words).masteredWords : ℚ))
          (learningRateRef (predictLearningProgress s words).learnedWords
            s.learningStreak)⌉ : ℤ) : ℚ)
      else ExtNum.infinity := by
  simp only [predictLearningProgress, learningRateRef]
  split_ifs <;> rfl

theorem scenarioD_counts :
    (predictLearningProgress scenarioDStats scenarioD).totalWords = 100 ∧
    (predictLearningProgress scenarioDStats scenarioD).learnedWords = 50 ∧
    (predictLearningProgress scenarioDStats scenarioD).masteredWords = 25 := by
  refine ⟨by decide, by decide, by decide⟩

theorem learningRateRef_scenarioD : learningRateRef 50 5 = 10 := by
  have h : learningRateRef 50 5 = min 20 (jsDiv 50 5) := by
    norm_num [learningRateRef]
  rw [h, jsDiv_50_5]; norm_num

theorem mathRound_mem (x : ℚ) (h0 : 0 ≤ x) (h1 : x ≤ 100) :
    0 ≤ mathRound x ∧ mathRound x ≤ 100 := by
  unfold mathRound
  constructor
  · exact Int.floor_nonneg.2 (by linarith)
  · have : ⌊x + 1 / 2⌋ < 101 := Int.floor_lt.2 (by push_cast; linarith)
    omega

theorem scenarioD_estimate :
    (predictLearningProgress scenarioDStats scenarioD).estimatedDaysToMaster =
      ExtNum.finite 8 := by
  rw [predictLearningProgress_estimate]
  obtain ⟨h1, h2, h3⟩ := scenarioD_counts
  rw [h1, h2, h3]
  have hs : scenarioDStats.learningStreak = 5 := rfl
  rw [hs, learningRateRef_scenarioD]
  have hq : jsDiv (((100 : ℕ) : ℚ) - ((25 : ℕ) : ℚ)) 10 = 15 / 2 := by
    rw [show (((100 : ℕ) : ℚ) - ((25 : ℕ) : ℚ)) = 75 by norm_num, jsDiv_75_10]
  have hc : ⌈(15 / 2 : ℚ)⌉ = 8 := by
    rw [Int.ceil_eq_iff]; norm_num
  rw [hq, hc]
  norm_num

/-- C21 (as stated, refuted). In Scenario D (100 words, 25 mastered, 50 learned, streak 5)
`predictLearningProgress` returns `estimatedDaysToMaster = 8`, the ceiling of
`(100 - 25) / 10 = 7.5`, not 7.5. -/
theorem predictLearningProgress_estimate_counterexample :
    (predictLearningProgress scenarioDStats scenarioD).estimatedDaysToMaster = ExtNum.finite 8 ∧
      ((100 : ℚ) - 25) / 10 = 7.5 ∧ ExtNum.finite 8 ≠ ExtNum.finite 7.5 := by
  refine ⟨scenarioD_estimate, by norm_num, ?_⟩
  intro h
  injection h with h
  norm_num at h

/-- C21 (amended). For every list of words and every tracker, with
`rate = min(20, learnedWords / max(1, streak))`, `predictLearningProgress` returns
`estimatedDaysToMaster = ceil((totalWords - masteredWords) / rate)` when `rate > 0` and
`Infinity` when `rate = 0`, and `rate` is never negative; both quotients are quotients of
doubles. -/
theorem predictLearningProgress_estimate_ceil (s : UserStats) (words : List Word) :
    (0 < learningRateRef (predictLearningProgress s words).learnedWords s.learningStreak →
      (predictLearningProgress s words).estimatedDaysToMaster =
        ExtNum.finite ((⌈jsDiv (((predictLearningProgress s words).totalWords : ℚ) -
          ((predictLearningProgress s words).masteredWords : ℚ))
          (learningRateRef (predictLearningProgress s words).learnedWords
            s.learningStreak)⌉ : ℤ) : ℚ)) ∧
    (learningRateRef (predictLearningProgress s words).learnedWords s.learningStreak = 0 →
      (predictLearningProgress s words).estimatedDaysToMaster = ExtNum.infinity) ∧
    0 ≤ learningRateRef (predictLearningProgress s words).learnedWords s.learningStreak := by
  refine ⟨fun h => ?_, fun h => ?_, learningRateRef_nonneg _ _⟩
  · rw [predictLearningProgress_estimate, if_pos h]
  · rw [predictLearningProgress_estimate, if_neg (by rw [h]; exact lt_irrefl 0)]

/-- Scenario D under the amended C21: the rate is 10 and the estimate is
`ceil((100 - 25) / 10) = 8`. -/
theorem predictLearningProgress_estimate_ceil_witness :
    0 < learningRateRef (predictLearningProgress scenarioDStats scenarioD).learnedWords
        scenarioDStats.learningStreak ∧
      (predictLearningProgress scenarioDStats scenarioD).estimatedDaysToMaster =
        ExtNum.finite ((⌈jsDiv ((100 : ℚ) - 25) 10⌉ : ℤ) : ℚ) ∧
      ⌈jsDiv ((100 : ℚ) - 25) 10⌉ = 8 := by
  obtain ⟨h1, h2, h3⟩ := scenarioD_counts
  have hs : scenarioDStats.learningStreak = 5 := rfl
  have hr : learningRateRef (predictLearningProgress scenarioDStats scenarioD).learnedWords
      scenarioDStats.learningStreak = 10 := by
    rw [h2, hs, learningRateRef_scenarioD]
  have hpos : 0 < learningRateRef
      (predictLearningProgress scenarioDStats scenarioD).learnedWords
      scenarioDStats.learningStreak := by rw [hr]; norm_num
  have hq : jsDiv ((100 : ℚ) - 25) 10 = 15 / 2 := by
    rw [show ((100 : ℚ) - 25) = 75 by norm_num, jsDiv_75_10]
  refine ⟨hpos, ?_, ?_⟩
  · rw [(predictLearningProgress_estimate_ceil scenarioDStats scenarioD).1 hpos, hr, h1, h3]
    norm_num
  · rw [hq, Int.ceil_eq_iff]; norm_num

theorem predictLearningProgress_rate (s : UserStats) (words : List Word) :
    (predictLearningProgress s words).dailyLearningRate =
      jsDiv ((mathRound (jsMul (learningRateRef (predictLearningProgress s words).learnedWords
        s.learningStreak) 10) : ℤ) : ℚ) 10 := rfl

theorem learningRateRef_one_three : learningRateRef 1 3 = jsDiv 1 3 := by
  have h : learningRateRef 1 3 = min 20 (jsDiv 1 3) := by
    norm_num [learningRateRef]
  rw [h, jsDiv_1_3]; norm_num

/-- C22 (as stated, refuted). With one learned word and a streak of 3,
`min(20, learnedWords / max(1, streak))` is the double of 1/3 but `predictLearningProgress`
returns `dailyLearningRate` = the double 0.3. -/
theorem predictLearningProgress_rate_counterexample :
    (predictLearningProgress threeDayStats oneLearnedWord).learnedWords = 1 ∧
      threeDayStats.learningStreak = 3 ∧
      learningRateRef 1 3 = jsDiv 1 3 ∧
      (predictLearningProgress threeDayStats oneLearnedWord).dailyLearningRate = jsDiv 3 10 ∧
      jsDiv 3 10 ≠ jsDiv 1 3 := by
  have hl : (predictLearningProgress threeDayStats oneLearnedWord).learnedWords = 1 := by
    decide
  refine ⟨hl, rfl, learningRateRef_one_three, ?_, by rw [jsDiv_3_10, jsDiv_1_3]; norm_num⟩
  rw [predictLearningProgress_rate, hl]
  have hs : threeDayStats.learningStreak = 3 := rfl
  rw [hs, learningRateRef_one_three, jsDiv_1_3, jsMul_third_10]
  have hf : mathRound (3752999689475413 / 1125899906842624 : ℚ) = 3 := by
    unfold mathRound
    rw [Int.floor_eq_iff]; norm_num
  rw [hf]
  norm_num

/-- C22 (amended). For every list of words and every tracker, the `dailyLearningRate` that
`predictLearningProgress` returns is `min(20, learnedWords / max(1, streak))` rounded to one
decimal place, `Math.round(rate * 10) / 10`, where `learnedWords` is the number of words with
`reviewCount > 0`; the quotients and the product are those of doubles. -/
theorem predictLearningProgress_rate_rounded (s : UserStats) (words : List Word) :
    (predictLearningProgress s words).dailyLearningRate =
      jsDiv ((mathRound (jsMul (learningRateRef
        (words.countP (fun w => decide (w.reviewCount > 0))) s.learningStreak) 10) : ℤ) : ℚ)
        10 := by
  rw [predictLearningProgress_rate, List.countP_eq_length_filter]
  rfl

/-- C23. For every list of words, `predictLearningProgress` returns `totalWords` = the number
of words, `learnedWords` = the number of words with `reviewCount > 0`, `masteredWords` = the
number of words with `masteryLevel >= 4`, and `progressPercentage` =
`round(masteredWords / totalWords * 100)`, the quotient and the product being those of
doubles, which is 0 when `totalWords = 0` and lies in `[0, 100]`. -/
theorem predictLearningProgress_counts (s : UserStats) (words : List Word) :
    (predictLearningProgress s words).totalWords = words.length ∧
    (predictLearningProgress s words).learnedWords =
      words.countP (fun w => decide (w.reviewCount > 0)) ∧
    (predictLearningProgress s words).masteredWords =
      words.countP (fun w => decide (w.masteryLevel ≥ 4)) ∧
    (predictLearningProgress s words).progressPercentage =
      (if words.length = 0 then 0
       else mathRound (jsMul
         (jsDiv ((words.countP (fun w => decide (w.masteryLevel ≥ 4)) : ℕ) : ℚ)
           (words.length : ℚ)) 100)) ∧
    0 ≤ (predictLearningProgress s words).progressPercentage ∧
    (predictLearningProgress s words).progressPercentage ≤ 100 := by
  have hl : (predictLearningProgress s words).learnedWords =
      words.countP (fun w => decide (w.reviewCount > 0)) := by
    rw [List.countP_eq_length_filter]; rfl
  have hm : (predictLearningProgress s words).masteredWords =
      words.countP (fun w => decide (w.masteryLevel ≥ 4)) := by
    rw [List.countP_eq_length_filter]
    simp only [predictLearningProgress, orElseNum_zero_default]
  have hp : (predictLearningProgress s words).progressPercentage =
      (if words.length = 0 then 0
       else mathRound (jsMul
         (jsDiv ((words.countP (fun w => decide (w.masteryLevel ≥ 4)) : ℕ) : ℚ)
           (words.length : ℚ)) 100)) := by
    rw [← hm]
    by_cases h : words.length = 0
    · simp [predictLearningProgress, h]
    · have hpos : words.length > 0 := Nat.pos_of_ne_zero h
      simp only [predictLearningProgress, if_neg h, if_pos hpos]
  refine ⟨rfl, hl, hm, hp, ?_⟩
  rw [hp]
  by_cases h : words.length = 0
  · simp [h]
  · rw [if_neg h]
    have hpos : (0 : ℚ) < (words.length : ℚ) := by
      exact_mod_cast Nat.pos_of_ne_zero h
    have hle : ((words.countP (fun w => decide (w.masteryLevel ≥ 4)) : ℕ) : ℚ) ≤
        (words.length : ℚ) := by
      exact_mod_cast List.countP_le_length _
    obtain ⟨h0, h1⟩ := percent_mem _ _ (Nat.cast_nonneg _) hle hpos
    exact mathRound_mem _ h0 h1

/-- C23 at forty words of which 23 are mastered: the double product `23 / 40 * 100` is
57.49999999999999 and the reported percentage is 57. -/
theorem predictLearningProgress_counts_witness :
    (predictLearningProgress fortyReviews fortyWords).totalWords = 40 ∧
      (predictLearningProgress fortyReviews fortyWords).masteredWords = 23 ∧
      (predictLearningProgress fortyReviews fortyWords).progressPercentage = 57 := by
  obtain ⟨h1, -, h3, h4, -, -⟩ := predictLearningProgress_counts fortyReviews fortyWords
  have hlen : fortyWords.length = 40 := by decide
  have hcnt : fortyWords.countP (fun w => decide (w.masteryLevel ≥ 4)) = 23 := by decide
  refine ⟨by rw [h1, hlen], by rw [h3, hcnt], ?_⟩
  rw [h4, hlen, hcnt]
  norm_num [mathRound_percent_23_40]

/-! ## Scheduling engine: frame -/

theorem calculateNextReview_returns (now : ℤ) (w : Word) (r : String) (e : ℚ)
    (he : w.easeFactor = some e) :
    ∃ i, calculateNextReview now w r =
      Except.ok { gradeUpdate w r with nextReview := now + i * msPerDay, lastReview := some now } := by
  have key : ∃ e', (gradeUpdate w r).easeFactor = some e' := by
    rcases response_cases r with ⟨q, rfl⟩ | ⟨h1, h2, h3, h4⟩
    · rw [gradeUpdate_name w q e he]; exact ⟨_, rfl⟩
    · rw [gradeUpdate_unknown w r h1 h2 h3 h4]; exact ⟨e, he⟩
  obtain ⟨e', he'⟩ := key
  obtain ⟨i, hi⟩ : ∃ i, calculateReviewInterval (gradeUpdate w r).reviewCount
      (gradeUpdate w r).easeFactor w.difficulty = some i := by
    rw [he']; exact ⟨_, calculateReviewInterval_some _ _ _⟩
  exact ⟨i, calculateNextReview_ok now w r i hi⟩

theorem gradeUpdate_frame (w : Word) (r : String) :
    gradeUpdate w r =
      { w with
        easeFactor := (gradeUpdate w r).easeFactor
        reviewCount := (gradeUpdate w r).reviewCount
        masteryLevel := (gradeUpdate w r).masteryLevel } := by
  unfold gradeUpdate
  split_ifs <;> rfl

/-- C24. For a word with a numeric ease factor and every response, `calculateNextReview`
returns a word that differs from the input at most in `easeFactor`, `reviewCount`,
`masteryLevel`, `nextReview` and `lastReview`: `difficulty`, `leitnerBox`, `hardBoxAttempts`,
`forceReviewTime` and every other field are the input's. -/
theorem calculateNextReview_frame (now : ℤ) (w : Word) (r : String) (e : ℚ)
    (he : w.easeFactor = some e) :
    ∃ w', calculateNextReview now w r = Except.ok w' ∧
      w' = { w with
        easeFactor := w'.easeFactor
        reviewCount := w'.reviewCount
        masteryLevel := w'.masteryLevel
        nextReview := w'.nextReview
        lastReview := w'.lastReview } ∧
      w'.difficulty = w.difficulty ∧ w'.leitnerBox = w.leitnerBox ∧
      w'.hardBoxAttempts = w.hardBoxAttempts ∧ w'.forceReviewTime = w.forceReviewTime := by
  obtain ⟨i, hi⟩ := calculateNextReview_returns now w r e he
  have hf := gradeUpdate_frame w r
  refine ⟨_, hi, ?_, ?_, ?_, ?_, ?_⟩
  · conv_lhs => rw [hf]
  all_goals (rw [hf])

/-- C24 at Scenario A's word graded `good`. -/
theorem calculateNextReview_frame_witness :
    ∃ w', calculateNextReview 1000 scenarioA "good" = Except.ok w' ∧
      w' = { scenarioA with
        easeFactor := w'.easeFactor
        reviewCount := w'.reviewCount
        masteryLevel := w'.masteryLevel
        nextReview := w'.nextReview
        lastReview := w'.lastReview } ∧
      w'.difficulty = scenarioA.difficulty ∧ w'.leitnerBox = scenarioA.leitnerBox ∧
      w'.hardBoxAttempts = scenarioA.hardBoxAttempts ∧
      w'.forceReviewTime = scenarioA.forceReviewTime :=
  calculateNextReview_frame 1000 scenarioA "good" 2.5 rfl

/-! ## User statistics over a sequence of calls -/

theorem recordOutcomes_append (s : UserStats) (calls : List (ℤ × Bool)) (call : ℤ × Bool) :
    recordOutcomes s (calls ++ [call]) =
      updateUserStats call.1 (recordOutcomes s calls) call.2 := by
  simp [recordOutcomes, List.foldl_append]

theorem recordOutcomes_streak (s : UserStats) (calls : List (ℤ × Bool)) :
    (recordOutcomes s calls).learningStreak = s.learningStreak := by
  induction calls using List.reverseRecOn with
  | nil => rfl
  | append_singleton calls call ih =>
    rw [recordOutcomes_append, updateUserStats_eq]
    exact ih

/-- C25. For every tracker state, clock reading and outcome, `updateUserStats` leaves
`learningStreak` as it was and stores the day of the call in `lastReviewDate`; so after any
sequence of calls starting from the initial tracker `learningStreak` is still 0, and
`lastReviewDate` is the day of the last call (absent when there was no call). -/
theorem updateUserStats_streak_frozen (calls : List (ℤ × Bool)) :
    (∀ (now : ℤ) (s : UserStats) (wasCorrect : Bool),
      (updateUserStats now s wasCorrect).learningStreak = s.learningStreak ∧
      (updateUserStats now s wasCorrect).lastReviewDate = some (toDateString now)) ∧
    (recordOutcomes initialUserStats calls).learningStreak = 0 ∧
    (recordOutcomes initialUserStats calls).lastReviewDate =
      calls.getLast?.map (fun call => toDateString call.1) := by
  refine ⟨fun now s c => by rw [updateUserStats_eq]; exact ⟨rfl, rfl⟩,
    recordOutcomes_streak initialUserStats calls, ?_⟩
  induction calls using List.reverseRecOn with
  | nil => rfl
  | append_singleton calls call _ =>
    rw [recordOutcomes_append, updateUserStats_eq]
    simp

/-! ## Scheduling engine: ease factor and interval steps -/

theorem two_zpow_neg_1022_le_one : (2 : ℚ) ^ (-1022 : ℤ) ≤ 1 := by
  have h := zpow_le_zpow_right₀ (by norm_num : (1 : ℚ) ≤ 2) (by norm_num : (-1022 : ℤ) ≤ 0)
  simpa using h

/-- Rounding a number that is at least 1 moves it by at most `2 ^ (-53)` of itself. -/
theorem roundToDouble_near {x : ℚ} (hx : 1 ≤ x) :
    x * (1 - 1 / 9007199254740992) ≤ roundToDouble x ∧
      roundToDouble x ≤ x * (1 + 1 / 9007199254740992) := by
  have h := abs_roundToDouble_sub_le (x := x)
    (le_trans two_zpow_neg_1022_le_one (le_trans hx (le_abs_self x)))
  rw [abs_of_pos (by linarith : 0 < x)] at h
  have hu : (2 : ℚ) ^ (-53 : ℤ) = 1 / 9007199254740992 := by norm_num
  rw [hu] at h
  obtain ⟨h1, h2⟩ := abs_le.1 h
  constructor <;> linarith

/-- The `again` and `hard` updates `e * m - c` never exceed the double `e` they start from. -/
theorem jsSub_jsMul_le {e m c : ℚ} (hd : roundToDouble e = e) (he : 13 / 10 ≤ e)
    (hm0 : 4 / 5 ≤ m) (hm : m ≤ 9 / 10) (hc : 0 ≤ c) : jsSub (jsMul e m) c ≤ e := by
  unfold jsSub jsMul
  have h0 : e * (4 / 5) ≤ e * m := mul_le_mul_of_nonneg_left hm0 (by linarith)
  have h1 : e * m ≤ e * (9 / 10) := mul_le_mul_of_nonneg_left hm (by linarith)
  have h2 := (roundToDouble_near (x := e * m) (by linarith)).2
  have h3 : roundToDouble (e * m) - c ≤ e := by linarith
  have h4 := roundToDouble_mono h3
  rwa [hd] at h4

/-- The `good` and `easy` updates `e + c - B` with `c <= B` exceed `e` by at most
`e * 2 ^ (-51)`. -/
theorem jsSub_jsAdd_le {e c B : ℚ} (he : 13 / 10 ≤ e) (hc0 : 0 ≤ c) (hc : c ≤ 1 / 5)
    (hB : c ≤ B) : jsSub (jsAdd e c) B ≤ e * (1 + 1 / 2251799813685248) := by
  unfold jsSub jsAdd
  have h1 := (roundToDouble_near (x := e + c) (by linarith)).2
  have hY : roundToDouble (e + c) - B ≤ e + (e + c) * (1 / 9007199254740992) := by linarith
  have h2 := roundToDouble_mono hY
  have h3 := (roundToDouble_near (x := e + (e + c) * (1 / 9007199254740992)) (by linarith)).2
  linarith

/-- The first `good` update `e + 0.1 - 0.08` stays above the floor and within `e * 2 ^ (-51)`
of `e + 0.02`. -/
theorem jsSub_jsAdd_first {e : ℚ} (he : 13 / 10 ≤ e) :
    double 1.3 ≤ jsSub (jsAdd e (3602879701896397 / 36028797018963968))
      (5764607523034235 / 72057594037927936) ∧
    |jsSub (jsAdd e (3602879701896397 / 36028797018963968))
      (5764607523034235 / 72057594037927936) - (e + 1 / 50)| ≤ e * (1 / 2251799813685248) := by
  unfold jsSub jsAdd
  obtain ⟨h1, h2⟩ := roundToDouble_near (x := e + 3602879701896397 / 36028797018963968)
    (by linarith)
  obtain ⟨h3, h4⟩ := roundToDouble_near
    (x := roundToDouble (e + 3602879701896397 / 36028797018963968) -
      5764607523034235 / 72057594037927936) (by linarith)
  constructor
  · have h5 : (1.3 : ℚ) ≤ roundToDouble (e + 3602879701896397 / 36028797018963968) -
        5764607523034235 / 72057594037927936 := by norm_num; linarith
    exact roundToDouble_mono h5
  · rw [abs_le]
    constructor <;> linarith

theorem tableEase_easeRiseWord :
    tableEase Quality.easy (double 1.86) easeRiseWord.reviewCount =
      2094173826727281 / 1125899906842624 := by
  have h0 : ((easeRiseWord.reviewCount : ℤ) : ℚ) = 0 := by simp [easeRiseWord, scenarioA]
  simp only [tableEase, h0, jsMul_zero, jsAdd_zero]
  rw [double_0_15, roundToDouble_0_15, double_1_86, jsAdd_1_86_0_15, jsSub_1_86_easy,
    double_1_3, max_eq_right (by norm_num)]

/-- C26 (as stated, refuted). A word with ease factor 1.86 and review count 0 graded `easy`
comes back with ease factor 1.8600000000000003: the double sum `1.86 + 0.15` is rounded up, and
taking 0.15 away again leaves one unit in the last place more than 1.86. -/
theorem calculateNextReview_easeFactor_rise_counterexample :
    easeRiseWord.easeFactor = some (double 1.86) ∧ (1.3 : ℚ) ≤ double 1.86 ∧
    easeRiseWord.reviewCount = 0 ∧
    ∃ w', calculateNextReview 0 easeRiseWord "easy" = Except.ok w' ∧
      w'.easeFactor = some (2094173826727281 / 1125899906842624) ∧
      double 1.86 < 2094173826727281 / 1125899906842624 := by
  obtain ⟨i, hi⟩ := calculateNextReview_returns 0 easeRiseWord "easy" (double 1.86) rfl
  refine ⟨rfl, by rw [double_1_86]; norm_num, rfl, _, hi, ?_, by rw [double_1_86]; norm_num⟩
  have hg := gradeUpdate_name easeRiseWord Quality.easy (double 1.86) rfl
  rw [show Quality.easy.name = "easy" from rfl] at hg
  simp only [hg, tableEase_easeRiseWord]

theorem tableEase_rise (q : Quality) (e : ℚ) (rc : ℤ) (hd : roundToDouble e = e)
    (hmin : (1.3 : ℚ) ≤ e) (hrc : 0 ≤ rc) :
    (q = Quality.good ∧ rc = 0 →
      |tableEase q e rc - (e + 0.02)| ≤ e * (2 : ℚ) ^ (-51 : ℤ)) ∧
    (¬ (q = Quality.good ∧ rc = 0) → tableEase q e rc ≤ e * (1 + (2 : ℚ) ^ (-51 : ℤ))) ∧
    (q = Quality.again ∨ q = Quality.hard → tableEase q e rc ≤ e) := by
  have hu : (2 : ℚ) ^ (-51 : ℤ) = 1 / 2251799813685248 := by norm_num
  have he : (13 / 10 : ℚ) ≤ e := by norm_num at hmin ⊢; exact hmin
  have hfloor : double 1.3 ≤ e := by
    have h := roundToDouble_mono hmin
    rwa [hd] at h
  have hrcq : (0 : ℚ) ≤ (rc : ℚ) := by exact_mod_cast hrc
  have hup : e ≤ e * (1 + 1 / 2251799813685248) := by linarith
  have hagain : tableEase Quality.again e rc ≤ e := by
    simp only [tableEase]
    refine max_le hfloor (jsSub_jsMul_le hd he ?_ ?_ ?_)
    · rw [double_0_8]; norm_num
    · rw [double_0_8]; norm_num
    · rw [double_0_15]; norm_num
  have hhard : tableEase Quality.hard e rc ≤ e := by
    simp only [tableEase]
    refine max_le hfloor (jsSub_jsMul_le hd he ?_ ?_ ?_)
    · rw [double_0_85]; norm_num
    · rw [double_0_85]; norm_num
    · rw [double_0_05]; norm_num
  have heasy : tableEase Quality.easy e rc ≤ e * (1 + 1 / 2251799813685248) := by
    simp only [tableEase]
    refine max_le (le_trans hfloor hup) (jsSub_jsAdd_le he ?_ ?_ ?_)
    · rw [double_0_15]; norm_num
    · rw [double_0_15]; norm_num
    · have h1 : (0 : ℚ) ≤ jsMul (double 0.01) rc :=
        roundToDouble_nonneg (mul_nonneg (by rw [double_0_01]; norm_num) hrcq)
      have h2 := roundToDouble_mono
        (show double 0.15 ≤ double 0.15 + jsMul (double 0.01) rc by linarith)
      rw [double_0_15] at h2 ⊢
      rwa [roundToDouble_0_15] at h2
  have hgood : 1 ≤ rc → tableEase Quality.good e rc ≤ e * (1 + 1 / 2251799813685248) := by
    intro h1
    have h1q : (1 : ℚ) ≤ (rc : ℚ) := by exact_mod_cast h1
    simp only [tableEase]
    refine max_le (le_trans hfloor hup) (jsSub_jsAdd_le he ?_ ?_ ?_)
    · rw [double_0_1]; norm_num
    · rw [double_0_1]; norm_num
    · have h2 : double 0.02 ≤ jsMul (double 0.02) rc := by
        have h := roundToDouble_mono
          (show double 0.02 ≤ double 0.02 * rc by
            have : (0 : ℚ) ≤ double 0.02 := by rw [double_0_02]; norm_num
            nlinarith)
        rw [double_0_02] at h ⊢
        rwa [roundToDouble_0_02] at h
      have h3 := roundToDouble_mono
        (show double 0.08 + double 0.02 ≤ double 0.08 + jsMul (double 0.02) rc by linarith)
      have h4 : roundToDouble (double 0.08 + double 0.02) = double 0.1 := by
        rw [double_0_08, double_0_02, double_0_1]
        exact jsAdd_0_08_0_02
      rw [h4] at h3
      exact h3
  have hfirst : |tableEase Quality.good e 0 - (e + 0.02)| ≤ e * (1 / 2251799813685248) := by
    obtain ⟨h1, h2⟩ := jsSub_jsAdd_first he
    simp only [tableEase, Int.cast_zero, jsMul_zero, jsAdd_zero]
    rw [double_0_08, roundToDouble_0_08, double_0_1, max_eq_right h1]
    rw [show (0.02 : ℚ) = 1 / 50 by norm_num]
    exact h2
  rw [hu]
  refine ⟨?_, ?_, ?_⟩
  · rintro ⟨rfl, rfl⟩
    exact hfirst
  · intro hn
    cases q with
    | again => exact le_trans hagain hup
    | hard => exact le_trans hhard hup
    | good =>
      have h1 : 1 ≤ rc := by
        have : rc ≠ 0 := fun h0 => hn ⟨rfl, h0⟩
        omega
      exact hgood h1
    | easy => exact heasy
  · rintro (rfl | rfl)
    · exact hagain
    · exact hhard

/-- C26 (amended). For a word whose ease factor `e` is a double with `e >= 1.3` and whose
review count is `>= 0`, and each of the four qualities, `calculateNextReview` returns a word
with an ease factor `e'` such that: `again` and `hard` give `e' <= e`; a `good` answer at
review count 0 gives `e'` within `e * 2 ^ (-51)` of `e + 0.02`; and in every other case
`e' <= e * (1 + 2 ^ (-51))`. So an ease factor above `e * (1 + 2 ^ (-51))` comes only from a
`good` answer at review count 0. -/
theorem calculateNextReview_easeFactor_rise_rounded (now : ℤ) (w : Word) (q : Quality) (e : ℚ)
    (he : w.easeFactor = some e) (hd : roundToDouble e = e) (hmin : (1.3 : ℚ) ≤ e)
    (hrc : 0 ≤ w.reviewCount) :
    ∃ w' e', calculateNextReview now w q.name = Except.ok w' ∧
      w'.easeFactor = some e' ∧
      (e * (1 + (2 : ℚ) ^ (-51 : ℤ)) < e' → q = Quality.good ∧ w.reviewCount = 0) ∧
      (q = Quality.good ∧ w.reviewCount = 0 →
        |e' - (e + 0.02)| ≤ e * (2 : ℚ) ^ (-51 : ℤ)) ∧
      (¬ (q = Quality.good ∧ w.reviewCount = 0) → e' ≤ e * (1 + (2 : ℚ) ^ (-51 : ℤ))) ∧
      (q = Quality.again ∨ q = Quality.hard → e' ≤ e) := by
  obtain ⟨i, hi⟩ := calculateNextReview_returns now w q.name e he
  obtain ⟨h1, h2, h3⟩ := tableEase_rise q e w.reviewCount hd hmin hrc
  refine ⟨_, tableEase q e w.reviewCount, hi, ?_, ?_, h1, h2, h3⟩
  · simp [gradeUpdate_name w q e he]
  · intro hlt
    by_contra hn
    exact absurd (h2 hn) (not_le.2 hlt)

theorem roundToDouble_1_86 :
    roundToDouble (double 1.86) = double 1.86 := by
  rw [double_1_86, roundToDouble_eq (8376695306909123 / 4503599627370496) 0 8376695306909123
    (by norm_num) (by norm_num) (by norm_num) (by norm_num [abs_lt])]
  norm_num

/-- C26 (amended) at the word with ease factor 1.86 and review count 0 graded `easy`: the
returned ease factor is at most `1.86 * (1 + 2 ^ (-51))`. -/
theorem calculateNextReview_easeFactor_rise_rounded_witness :
    ∃ w' e', calculateNextReview 0 easeRiseWord "easy" = Except.ok w' ∧
      w'.easeFactor = some e' ∧ e' ≤ double 1.86 * (1 + (2 : ℚ) ^ (-51 : ℤ)) := by
  obtain ⟨w', e', h1, h2, -, -, h5, -⟩ :=
    calculateNextReview_easeFactor_rise_rounded 0 easeRiseWord Quality.easy (double 1.86) rfl
      roundToDouble_1_86 (by rw [double_1_86]; norm_num) (by decide)
  exact ⟨w', e', h1, h2, h5 (fun h => by cases h.1)⟩

/-- C27. The interval is not monotone in the review count: at ease factor 2.5 and difficulty
medium `calculateReviewInterval` gives 5 days at review count 2 and 6 days at review count 1;
and a word with review count 1, ease factor 2.5 and difficulty medium graded `good` comes back
with review count 2, ease factor 2.5 and a next review 5 days after `now`. -/
theorem calculateReviewInterval_not_monotone (now : ℤ) :
    (1.3 : ℚ) ≤ 2.5 ∧
    calculateReviewInterval 2 (some 2.5) "medium" = some 5 ∧
    calculateReviewInterval 1 (some 2.5) "medium" = some 6 ∧ (5 : ℤ) < 6 ∧
    ∃ w', calculateNextReview now graduatedWord "good" = Except.ok w' ∧
      w'.reviewCount = 2 ∧ w'.easeFactor = some 2.5 ∧ w'.nextReview = now + 5 * msPerDay := by
  have h2 : calculateReviewInterval 2 (some 2.5) "medium" = some 5 := by
    rw [calculateReviewInterval_some]
    have hr : mathRound (jsMul (jsMul (jsMul 1 (2.5 : ℚ)) ((2 : ℤ) : ℚ))
        (difficultyMultiplier "medium")) = 5 := by
      have hm : difficultyMultiplier "medium" = 1 := by
        simp [difficultyMultiplier]; norm_num
      rw [hm, one_jsMul, show (2.5 : ℚ) = 5 / 2 by norm_num, roundToDouble_2_5,
        show (((2 : ℤ) : ℚ)) = 2 by norm_num, jsMul_2_5_2, jsMul_one, roundToDouble_five]
      unfold mathRound
      rw [Int.floor_eq_iff]
      norm_num
    rw [hr]; rfl
  have h1 : calculateReviewInterval 1 (some 2.5) "medium" = some 6 := by
    rw [calculateReviewInterval_some]; rfl
  refine ⟨by norm_num, h2, h1, by decide, ?_⟩
  have hg := gradeUpdate_name graduatedWord Quality.good 2.5 rfl
  simp only [Quality.name] at hg
  have he : tableEase Quality.good 2.5 graduatedWord.reviewCount = 2.5 := by
    have h1 : ((graduatedWord.reviewCount : ℤ) : ℚ) = 1 := by
      simp [graduatedWord]
    simp only [tableEase, h1, jsMul_one]
    rw [double_0_02, roundToDouble_0_02, double_0_08, jsAdd_0_08_0_02, double_0_1,
      jsAdd_2_5_0_1, jsSub_graduated, double_1_3, max_eq_right (by norm_num)]
    norm_num
  have hc : tableReviewCount Quality.good graduatedWord.reviewCount = 2 := by
    simp [tableReviewCount, graduatedWord]
  rw [he, hc] at hg
  have hi : calculateReviewInterval (gradeUpdate graduatedWord "good").reviewCount
      (gradeUpdate graduatedWord "good").easeFactor graduatedWord.difficulty = some 5 := by
    rw [hg]; exact h2
  refine ⟨_, calculateNextReview_ok now graduatedWord "good" 5 hi, ?_, ?_, rfl⟩
  · rw [hg]
  · rw [hg]

/-! ## Forced-review override: guard and attempts -/

theorem orElseNum_getD (x : Option ℚ) (d : ℚ) (h0 : x ≠ some 0) :
    orElseNum x d = x.getD d := by
  cases x with
  | none => rfl
  | some v =>
    have hv : v ≠ 0 := fun h => h0 (by rw [h])
    simp [orElseNum, hv]

/-- C28. For a word whose Leitner box is unset or `>= 1` and whose ease factor is absent or
a number other than 0, `applyLeitnerSystem word true` returns a word with Leitner box `>= 2`,
without `forceReviewTime`, and with `nextReview` set
`calculateReviewInterval reviewCount e difficulty` days after `now`, where `e` is the word's
ease factor, or 2.5 when it has none. -/
theorem applyLeitnerSystem_correct_guard (now : ℤ) (w : Word)
    (hbox : ∀ b, w.leitnerBox = some b → 1 ≤ b) (he0 : w.easeFactor ≠ some 0) :
    ∃ w' b' i, applyLeitnerSystem now w true = Except.ok w' ∧
      w'.leitnerBox = some b' ∧ 2 ≤ b' ∧
      w'.forceReviewTime = none ∧
      calculateReviewInterval w.reviewCount (some (w.easeFactor.getD 2.5)) w.difficulty
        = some i ∧
      w'.nextReview = now + i * msPerDay := by
  have h1 : 1 ≤ orElseInt w.leitnerBox 1 := by
    cases hw : w.leitnerBox with
    | none => simp [orElseInt]
    | some b =>
      have := hbox b hw
      rw [orElseInt_of_ne_zero b 1 (by omega)]; exact this
  have hgt : 1 < min 5 (orElseInt w.leitnerBox 1 + 1) := lt_min (by norm_num) (by omega)
  obtain ⟨i, hi⟩ : ∃ i, calculateReviewInterval w.reviewCount
      (some (orElseNum w.easeFactor 2.5)) w.difficulty = some i :=
    ⟨_, calculateReviewInterval_some _ _ _⟩
  refine ⟨_, min 5 (orElseInt w.leitnerBox 1 + 1), i,
    applyLeitnerSystem_true_gt now w i hgt hi, rfl, by omega, rfl, ?_, rfl⟩
  rw [← orElseNum_getD w.easeFactor 2.5 he0]; exact hi

/-- C28 at a word as `addWord` stores it, with neither Leitner box nor ease factor. -/
theorem applyLeitnerSystem_correct_guard_witness :
    ∃ w' b' i, applyLeitnerSystem 1000 { scenarioA with easeFactor := none } true
        = Except.ok w' ∧
      w'.leitnerBox = some b' ∧ 2 ≤ b' ∧
      w'.forceReviewTime = none ∧
      calculateReviewInterval scenarioA.reviewCount (some 2.5) scenarioA.difficulty = some i ∧
      w'.nextReview = 1000 + i * msPerDay :=
  applyLeitnerSystem_correct_guard 1000 { scenarioA with easeFactor := none }
    (fun b hb => by cases hb) (fun h => by cases h)

/-- C29. For a word whose `hardBoxAttempts` is unset or a non-negative integer, and for
either outcome, `applyLeitnerSystem` returns a word whose `hardBoxAttempts` is 0, 1 or 2. -/
theorem applyLeitnerSystem_attempts (now : ℤ) (w : Word) (wasCorrect : Bool)
    (hh : ∀ h, w.hardBoxAttempts = some h → 0 ≤ h) :
    ∃ w' h', applyLeitnerSystem now w wasCorrect = Except.ok w' ∧
      w'.hardBoxAttempts = some h' ∧ (h' = 0 ∨ h' = 1 ∨ h' = 2) := by
  have h0 : 0 ≤ orElseInt w.hardBoxAttempts 0 := by
    cases hw : w.hardBoxAttempts with
    | none => simp [orElseInt]
    | some h => rw [orElseInt_zero_default]; exact hh h hw
  cases wasCorrect with
  | true =>
    by_cases hbox : 1 < min 5 (orElseInt w.leitnerBox 1 + 1)
    · obtain ⟨i, hi⟩ : ∃ i, calculateReviewInterval w.reviewCount
          (some (orElseNum w.easeFactor 2.5)) w.difficulty = some i :=
        ⟨_, calculateReviewInterval_some _ _ _⟩
      exact ⟨_, 0, applyLeitnerSystem_true_gt now w i hbox hi, rfl, Or.inl rfl⟩
    · have hbox' : ¬ min 5 (orElseInt w.leitnerBox 1 + 1) > 1 := hbox
      refine ⟨{ w with leitnerBox := some (min 5 (orElseInt w.leitnerBox 1 + 1))
                       hardBoxAttempts := some 0 }, 0, ?_, rfl, Or.inl rfl⟩
      simp only [applyLeitnerSystem, leitnerBoxes, Bool.not_true, Bool.false_eq_true,
        if_false, hbox']
  | false =>
    by_cases hlt : orElseInt w.hardBoxAttempts 0 + 1 < 3
    · refine ⟨_, _, applyLeitnerSystem_false_lt now w hlt, rfl, ?_⟩
      omega
    · exact ⟨_, 0, applyLeitnerSystem_false_ge now w (by omega), rfl, Or.inl rfl⟩

/-- C29 at a word in box 3 with two earlier failures, answered wrongly. -/
theorem applyLeitnerSystem_attempts_witness :
    ∃ w' h', applyLeitnerSystem 1000 boxedWord false = Except.ok w' ∧
      w'.hardBoxAttempts = some h' ∧ (h' = 0 ∨ h' = 1 ∨ h' = 2) :=
  applyLeitnerSystem_attempts 1000 boxedWord false
    (fun h hh => by
      have h2 : h = 2 := (Option.some.inj hh).symm
      omega)

/-! ## Tracker invariant -/

theorem countersOk_updateUserStats (now : ℤ) (s : UserStats) (wasCorrect : Bool)
    (h : CountersOk s) : CountersOk (updateUserStats now s wasCorrect) := by
  obtain ⟨h1, h2, h3, h4⟩ := h
  rw [updateUserStats_eq]
  cases wasCorrect
  · refine ⟨?_, ?_, ?_, Or.inl ?_⟩ <;> simp <;> omega
  · refine ⟨?_, ?_, ?_, Or.inr ?_⟩ <;> simp <;> omega

theorem countersOk_recordOutcomes (calls : List (ℤ × Bool)) :
    CountersOk (recordOutcomes initialUserStats calls) := by
  induction calls using List.reverseRecOn with
  | nil => exact ⟨le_refl _, le_refl _, le_refl _, Or.inl rfl⟩
  | append_singleton calls call ih =>
    rw [recordOutcomes_append]
    exact countersOk_updateUserStats _ _ _ ih

/-- C30. Every tracker state reached from the initial tracker by a sequence of
`updateUserStats` calls has `correctReviews <= totalReviews`,
`consecutiveCorrect <= correctReviews`,
`consecutiveIncorrect <= totalReviews - correctReviews`, and `consecutiveCorrect = 0` or
`consecutiveIncorrect = 0`; and the accuracy `getEfficiencyStats` reports for it lies between
0 and 100. -/
theorem recordOutcomes_invariant (calls : List (ℤ × Bool)) :
    (recordOutcomes initialUserStats calls).correctReviews ≤
      (recordOutcomes initialUserStats calls).totalReviews ∧
    (recordOutcomes initialUserStats calls).consecutiveCorrect ≤
      (recordOutcomes initialUserStats calls).correctReviews ∧
    (recordOutcomes initialUserStats calls).consecutiveIncorrect ≤
      (recordOutcomes initialUserStats calls).totalReviews -
        (recordOutcomes initialUserStats calls).correctReviews ∧
    ((recordOutcomes initialUserStats calls).consecutiveCorrect = 0 ∨
      (recordOutcomes initialUserStats calls).consecutiveIncorrect = 0) ∧
    0 ≤ (getEfficiencyStats (recordOutcomes initialUserStats calls)).1.accuracy ∧
    (getEfficiencyStats (recordOutcomes initialUserStats calls)).1.accuracy ≤ 100 := by
  obtain ⟨h1, h2, h3, h4⟩ := countersOk_recordOutcomes calls
  refine ⟨h1, h2, by omega, h4, ?_⟩
  generalize recordOutcomes initialUserStats calls = s at h1
  have hacc : (getEfficiencyStats s).1.accuracy =
      mathRound (if s.totalReviews > 0 then
        jsMul (jsDiv (s.correctReviews : ℚ) (s.totalReviews : ℚ)) 100 else 0) := rfl
  rw [hacc]
  split_ifs with hpos
  · have hp : (0 : ℚ) < (s.totalReviews : ℚ) := by exact_mod_cast hpos
    have hle : (s.correctReviews : ℚ) ≤ (s.totalReviews : ℚ) := by exact_mod_cast h1
    obtain ⟨ha, hb⟩ := percent_mem _ _ (Nat.cast_nonneg _) hle hp
    exact mathRound_mem _ ha hb
  · exact mathRound_mem _ (le_refl _) (by norm_num)

/-! ## Rounding at ordinary inputs -/

theorem calculateNextReview_graded (now : ℤ) (w : Word) (q : Quality) (e : ℚ) (i : ℤ)
    (he : w.easeFactor = some e)
    (hi : calculateReviewInterval (tableReviewCount q w.reviewCount)
      (some (tableEase q e w.reviewCount)) w.difficulty = some i) :
    calculateNextReview now w q.name =
      Except.ok { w with
        easeFactor := some (tableEase q e w.reviewCount)
        reviewCount := tableReviewCount q w.reviewCount
        masteryLevel := tableMastery q w.masteryLevel
        nextReview := now + i * msPerDay
        lastReview := some now } := by
  rw [calculateNextReview_ok now w q.name i (by rw [gradeUpdate_name w q e he]; exact hi),
    gradeUpdate_name w q e he]

theorem tableEase_scenarioA_again :
    tableEase Quality.again 2.5 scenarioA.reviewCount = double 1.85 := by
  simp only [tableEase]
  rw [double_0_8, jsMul_scenarioB, double_0_15, jsSub_scenarioB, double_1_3, double_1_85,
    max_eq_right (by norm_num)]

theorem tableEase_again_twice :
    tableEase Quality.again (double 1.85) 0 = 5989787504402761 / 4503599627370496 := by
  simp only [tableEase]
  rw [double_1_85, double_0_8, jsMul_1_85_0_8, double_0_15, jsSub_again_twice, double_1_3,
    max_eq_right (by norm_num)]

/-- The default ease factor 2.5 graded `again` twice: the first answer stores the double 1.85,
the second 1.3300000000000003, one unit in the last place above the double 1.33. -/
theorem calculateNextReview_again_twice :
    ∃ w₁ w₂, calculateNextReview 0 scenarioA "again" = Except.ok w₁ ∧
      calculateNextReview 0 w₁ "again" = Except.ok w₂ ∧
      w₁.easeFactor = some (double 1.85) ∧
      w₂.easeFactor = some (5989787504402761 / 4503599627370496) ∧
      double 1.33 < 5989787504402761 / 4503599627370496 := by
  have h1 := calculateNextReview_graded 0 scenarioA Quality.again 2.5 _ rfl
    (calculateReviewInterval_some _ _ _)
  rw [tableEase_scenarioA_again] at h1
  refine ⟨_, _, h1, calculateNextReview_graded 0 _ Quality.again (double 1.85) _ rfl
    (calculateReviewInterval_some _ _ _), rfl, ?_, ?_⟩
  · show some (tableEase Quality.again (double 1.85) 0) = _
    rw [tableEase_again_twice]
  · rw [double_1_33]; norm_num

theorem tableEase_hardRoundingWord :
    tableEase Quality.hard 2.375 hardRoundingWord.reviewCount =
      8866461766385663 / 4503599627370496 := by
  simp only [tableEase]
  rw [show (2.375 : ℚ) = 19 / 8 by norm_num, double_0_85, jsMul_2_375_0_85, double_0_05,
    jsSub_2_375_hard, double_1_3, max_eq_right (by norm_num)]

theorem calculateReviewInterval_hardRoundingWord :
    calculateReviewInterval 16 (some (8866461766385663 / 4503599627370496)) "medium" =
      some 31 := by
  rw [calculateReviewInterval_some, difficultyMultiplier_medium, one_jsMul,
    roundToDouble_1_96875]
  have h16 : (((16 : ℤ) : ℚ)) = 16 := by norm_num
  rw [h16, jsMul_1_96875_16, jsMul_one, roundToDouble_31_5]
  have hr : mathRound (8866461766385663 / 281474976710656) = 31 := by
    unfold mathRound
    rw [Int.floor_eq_iff]; norm_num
  rw [hr]; rfl

/-- Ease factor 2.375 and review count 16 (difficulty medium) graded `hard`: the stored ease
factor is 1.9687499999999998 and the word is scheduled 31 days later, the double product
`1.9687499999999998 * 16` being 31.499999999999996. -/
theorem calculateNextReview_hard_rounding :
    ∃ w', calculateNextReview 0 hardRoundingWord "hard" = Except.ok w' ∧
      w'.easeFactor = some (8866461766385663 / 4503599627370496) ∧
      w'.reviewCount = 16 ∧ w'.nextReview = 0 + 31 * msPerDay := by
  have hi : calculateReviewInterval (tableReviewCount Quality.hard hardRoundingWord.reviewCount)
      (some (tableEase Quality.hard 2.375 hardRoundingWord.reviewCount))
      hardRoundingWord.difficulty = some 31 := by
    rw [tableEase_hardRoundingWord]
    exact calculateReviewInterval_hardRoundingWord
  refine ⟨_, calculateNextReview_graded 0 hardRoundingWord Quality.hard 2.375 31 rfl hi,
    ?_, rfl, rfl⟩
  show some (tableEase Quality.hard 2.375 hardRoundingWord.reviewCount) = _
  rw [tableEase_hardRoundingWord]

theorem tableEase_easyRoundingWord :
    tableEase Quality.easy (double 2.51) easyRoundingWord.reviewCount =
      5629499534213119 / 2251799813685248 := by
  have h1 : ((easyRoundingWord.reviewCount : ℤ) : ℚ) = 1 := by
    simp [easyRoundingWord]
  simp only [tableEase, h1, jsMul_one]
  rw [double_0_01, roundToDouble_0_01, double_0_15, jsAdd_0_15_0_01, double_2_51,
    jsAdd_2_51_0_15, jsSub_2_51_easy, double_1_3, max_eq_right (by norm_num)]

theorem calculateReviewInterval_easyRoundingWord :
    calculateReviewInterval 2 (some (5629499534213119 / 2251799813685248)) "hard" =
      some 7 := by
  rw [calculateReviewInterval_some, difficultyMultiplier_hard, one_jsMul,
    roundToDouble_2_4999]
  have h2 : (((2 : ℤ) : ℚ)) = 2 := by norm_num
  rw [h2, jsMul_2_4999_2, jsMul_4_9999_1_5]
  have hr : mathRound (4222124650659839 / 562949953421312) = 7 := by
    unfold mathRound
    rw [Int.floor_eq_iff]; norm_num
  rw [hr]; rfl

/-- Ease factor 2.51 and review count 1 (difficulty hard) graded `easy`: the stored ease
factor is 2.4999999999999996 and the word is scheduled 7 days later, the double product
`2.4999999999999996 * 2 * 1.5` being 7.499999999999998. -/
theorem calculateNextReview_easy_rounding :
    ∃ w', calculateNextReview 0 easyRoundingWord "easy" = Except.ok w' ∧
      w'.easeFactor = some (5629499534213119 / 2251799813685248) ∧
      w'.reviewCount = 2 ∧ w'.nextReview = 0 + 7 * msPerDay := by
  have hi : calculateReviewInterval (tableReviewCount Quality.easy easyRoundingWord.reviewCount)
      (some (tableEase Quality.easy (double 2.51) easyRoundingWord.reviewCount))
      easyRoundingWord.difficulty = some 7 := by
    rw [tableEase_easyRoundingWord]
    exact calculateReviewInterval_easyRoundingWord
  refine ⟨_, calculateNextReview_graded 0 easyRoundingWord Quality.easy (double 2.51) 7 rfl hi,
    ?_, rfl, rfl⟩
  show some (tableEase Quality.easy (double 2.51) easyRoundingWord.reviewCount) = _
  rw [tableEase_easyRoundingWord]

theorem twentyOneWords_counts :
    (predictLearningProgress scenarioDStats twentyOneWords).totalWords = 21 ∧
    (predictLearningProgress scenarioDStats twentyOneWords).learnedWords = 7 ∧
    (predictLearningProgress scenarioDStats twentyOneWords).masteredWords = 0 := by
  refine ⟨by decide, by decide, by decide⟩

theorem learningRateRef_7_5 : learningRateRef 7 5 = 3152519739159347 / 2251799813685248 := by
  have h : learningRateRef 7 5 = min 20 (jsDiv 7 5) := by
    norm_num [learningRateRef]
  rw [h, jsDiv_7_5]; norm_num

/-- Twenty-one words, seven of them learned and none mastered, with a streak of 5: the rate is
the double 1.4, the double quotient `21 / 1.4` is 15.000000000000002 and the estimate is 16
days. -/
theorem predictLearningProgress_estimate_rounding :
    (predictLearningProgress scenarioDStats twentyOneWords).estimatedDaysToMaster =
      ExtNum.finite 16 := by
  rw [predictLearningProgress_estimate]
  obtain ⟨h1, h2, h3⟩ := twentyOneWords_counts
  rw [h1, h2, h3]
  have hs : scenarioDStats.learningStreak = 5 := rfl
  rw [hs, learningRateRef_7_5]
  have hq : jsDiv (((21 : ℕ) : ℚ) - ((0 : ℕ) : ℚ))
      (3152519739159347 / 2251799813685248) = 8444249301319681 / 562949953421312 := by
    rw [show (((21 : ℕ) : ℚ) - ((0 : ℕ) : ℚ)) = 21 by norm_num, jsDiv_21_1_4]
  have hc : ⌈(8444249301319681 / 562949953421312 : ℚ)⌉ = 16 := by
    rw [Int.ceil_eq_iff]; norm_num
  rw [hq, hc]
  norm_num

end SRS
